import Mathlib

/-!
Verification of the snowflake-uuid7-ts identifier library.

The development shallowly embeds the three generator classes of the
repository:

* `Snowflake` (src/snowflake.ts): 64-bit snowflake ids,
* `UUIDv7` (the one-argument variant, src/unnamed/part_000, the variant
  whose `rand_a` field carries the sequence and whose constructor takes a
  single `sequence` argument used as the sequence offset),
* `UUIDv7Worker` (the two-argument variant, src/unnamed/part_001, the
  variant whose `rand_a` is random and whose `rand_b` carries
  workerId/sequence/random bits).

JavaScript semantics used by the source are modelled explicitly:

* JS `BigInt` values are `Int` (arbitrary precision, like BigInt);
  `x << n` on BigInt equals `x * 2 ^ n` and is written with Mathlib's
  `<<<` on `Int`; BigInt `&`/`|` are the two's-complement `Int.land` /
  `Int.lor`.
* JS strings are `List Char` (all characters involved are ASCII);
  `padStart`, `slice`, `substring` and the global dash-removing
  `replace` become `List.replicate`-padding, `take`/`drop` and
  `filter`.
* `BigInt(string)`, `BigInt.prototype.toString(radix)` and
  `Number.parseInt(string, radix)` are modelled by `jsStringToBigInt`,
  `jsBigIntToString` and `parseIntList`.  A thrown exception is `none`;
  `Number.parseInt` returning `NaN` is also modelled as `none` (no code
  path of the repository stores a `NaN` field on inputs it produces).
* `Date.now()` is a clock trace `Nat → Int` giving the successive
  readings observed during one call; the busy-wait loop
  `waitTillNextMillis` consumes fuel, `none` standing for a wait that
  never ends within the modelled horizon.
* `crypto.getRandomValues` on a `BigUint64Array(1)` is an explicit
  `random : Int` argument holding the drawn 64-bit value.
-/

/-- Character for digit `n` as produced by JS `toString(radix)`:
`0`-`9` then lowercase `a`-`f`. -/
def jsDigitChar (n : Nat) : Char :=
  if n < 10 then Char.ofNat (48 + n) else Char.ofNat (87 + n)

/-- Numeric value of a (case-insensitive) hex digit character, stated
on code points: 48-57 are `0`-`9`, 97-102 are `a`-`f`, 65-70 are
`A`-`F`. -/
def digitVal? (c : Char) : Option Nat :=
  if 48 ≤ c.toNat ∧ c.toNat ≤ 57 then some (c.toNat - 48)
  else if 97 ≤ c.toNat ∧ c.toNat ≤ 102 then some (c.toNat - 87)
  else if 65 ≤ c.toNat ∧ c.toNat ≤ 70 then some (c.toNat - 55)
  else none

/-- Whether `c` is a digit of radix `B` (case-insensitive, `B ≤ 16`). -/
def isRadixDigit (B : Nat) (c : Char) : Bool :=
  match digitVal? c with
  | some v => v < B
  | none => false

/-- Minimal big-endian digit list of `n` in base `B`, with explicit fuel
so that it computes by kernel reduction; `natToDigits` supplies enough
fuel. -/
def natToDigitsGo (B : Nat) : Nat → Nat → List Char
  | 0, _ => []
  | fuel+1, n => if n < B then [jsDigitChar n] else natToDigitsGo B fuel (n / B) ++ [jsDigitChar (n % B)]

/-- Minimal big-endian digit list of `n` in base `B` (model of JS
`toString(radix)` for a nonnegative value). -/
def natToDigits (B n : Nat) : List Char :=
  natToDigitsGo B (n + 1) n

/-- Model of JS `BigInt.prototype.toString(radix)`: minimal digits, a
leading minus sign for negative values. -/
def jsBigIntToString (B : Nat) (v : Int) : List Char :=
  if v < 0 then '-' :: natToDigits B v.natAbs else natToDigits B v.toNat

/-- Model of JS `String.prototype.padStart(k, c)` on a char list. -/
def padStartList (k : Nat) (c : Char) (l : List Char) : List Char :=
  List.replicate (k - l.length) c ++ l

/-- Exactly `k` base-`B` digits of `n`, big endian (the shape
`padStart` produces on an in-range value). -/
def fixedDigits (B : Nat) : Nat → Nat → List Char
  | 0, _ => []
  | k+1, n => fixedDigits B k (n / B) ++ [jsDigitChar (n % B)]

/-- Numeric value of a big-endian digit list. -/
def foldDigits (B : Nat) (l : List Char) : Nat :=
  l.foldl (fun acc c => acc * B + ((digitVal? c).getD 0)) 0

/-- Value of the longest digit run at the start of `l`; `none` when the
run is empty (the `NaN` case of `Number.parseInt`). -/
def parseDigitsRun (B : Nat) (l : List Char) : Option Nat :=
  let ds := l.takeWhile (fun c => isRadixDigit B c)
  if ds.isEmpty then none else some (foldDigits B ds)

/-- Model of JS `Number.parseInt(string, B)` on inputs without leading
whitespace: an optional sign followed by a maximal digit run; `NaN` is
`none`. -/
def parseIntList (B : Nat) (l : List Char) : Option Int :=
  match l with
  | [] => none
  | c :: rest =>
    if c = '-' then (parseDigitsRun B rest).map (fun n => -(n : Int))
    else if c = '+' then (parseDigitsRun B rest).map (fun n => (n : Int))
    else (parseDigitsRun B (c :: rest)).map (fun n => (n : Int))

/-- JS whitespace characters relevant to `BigInt(string)` trimming
(space, tab, line feed, carriage return). -/
def isJsSpace (c : Char) : Bool :=
  c.toNat = 32 ∨ c.toNat = 9 ∨ c.toNat = 10 ∨ c.toNat = 13

/-- Trim leading and trailing whitespace. -/
def trimWsList (l : List Char) : List Char :=
  ((l.dropWhile isJsSpace).reverse.dropWhile isJsSpace).reverse

/-- Value of a complete digit string (every character a radix-`B`
digit, nonempty), else `none`. -/
def parseAllDigits (B : Nat) (l : List Char) : Option Nat :=
  if l.isEmpty then none
  else if l.all (fun c => isRadixDigit B c) then some (foldDigits B l) else none

/-- Model of the JS `BigInt(string)` conversion: trimmed input, empty
string is `0`, `0x`/`0b`/`0o` radix literals without sign, otherwise an
optionally signed decimal string; a `SyntaxError` is `none`. -/
def jsStringToBigIntGo : List Char → Option Int
  | [] => some 0
  | c :: rest =>
    if c = '-' then (parseAllDigits 10 rest).map (fun n => -(n : Int))
    else if c = '+' then (parseAllDigits 10 rest).map (fun n => (n : Int))
    else if c = '0' then
      match rest with
      | [] => some 0
      | d :: rest2 =>
        if d = 'x' ∨ d = 'X' then (parseAllDigits 16 rest2).map (fun n => (n : Int))
        else if d = 'b' ∨ d = 'B' then (parseAllDigits 2 rest2).map (fun n => (n : Int))
        else if d = 'o' ∨ d = 'O' then (parseAllDigits 8 rest2).map (fun n => (n : Int))
        else (parseAllDigits 10 (c :: d :: rest2)).map (fun n => (n : Int))
    else (parseAllDigits 10 (c :: rest)).map (fun n => (n : Int))

def jsStringToBigInt (s : String) : Option Int :=
  jsStringToBigIntGo (trimWsList s.data)

/-- Outcome of one `getTimestampAndSequence` call on a generator with
state type `σ`: the updated state together with the returned
`[timestamp, sequence]` pair, a `ClockRegressionError` throw (the state
it leaves behind is recorded), or exhaustion of the busy-wait fuel. -/
inductive Outcome (σ : Type) where
  | ok (st : σ) (timestamp : Int) (sequence : Int)
  | clockRegression (st : σ)
  | outOfFuel
deriving DecidableEq

/-- Outcome of one `generate` / `generateBinary` call producing a value
of type `α`. -/
inductive GenOutcome (σ α : Type) where
  | ok (st : σ) (value : α)
  | clockRegression (st : σ)
  | outOfFuel
deriving DecidableEq

/-- The busy-wait loop shared verbatim by all three classes:
repeatedly read the clock until the reading exceeds `lastTimestamp`. -/
def waitTillNextMillis (lastTimestamp : Int) (clock : Nat → Int) : Nat → Option Int
  | 0 => none
  | fuel+1 =>
    let timestamp := clock 0
    if timestamp ≤ lastTimestamp then waitTillNextMillis lastTimestamp (fun i => clock (i + 1)) fuel
    else some timestamp

/-- The `8-4-4-4-12` hyphenated-hex pattern
`/^[0-9a-f]{8}-[0-9a-f]{4}-[0-9a-f]{4}-[0-9a-f]{4}-[0-9a-f]{12}$/i`
shared by both UUIDv7 variants: `hexRun n` consumes exactly `n`
case-insensitive hex digits. -/
def hexRun : Nat → List Char → Option (List Char)
  | 0, l => some l
  | _+1, [] => none
  | n+1, c :: l => if isRadixDigit 16 c then hexRun n l else none

/-- Consume one literal dash. -/
def expectDash : List Char → Option (List Char)
  | '-' :: l => some l
  | _ => none

/-- Anchored match of the UUID regular expression against a string. -/
def uuidRegexAccepts (s : String) : Bool :=
  (do
    let l ← hexRun 8 s.data
    let l ← expectDash l
    let l ← hexRun 4 l
    let l ← expectDash l
    let l ← hexRun 4 l
    let l ← expectDash l
    let l ← hexRun 4 l
    let l ← expectDash l
    let l ← hexRun 12 l
    pure l) = some []

namespace Snowflake

/-- `Snowflake.EPOCH`. -/
def EPOCH : Int := 1288834974657

/-- `Snowflake.WORKER_ID_LEN`. -/
def WORKER_ID_LEN : Nat := 10

/-- `Snowflake.SEQ_LEN`. -/
def SEQ_LEN : Nat := 12

/-- `Snowflake.WORKER_ID_SHIFT = BigInt(SEQ_LEN)`. -/
def WORKER_ID_SHIFT : Nat := SEQ_LEN

/-- `Snowflake.TIMESTAMP_SHIFT = BigInt(WORKER_ID_LEN + SEQ_LEN)`. -/
def TIMESTAMP_SHIFT : Nat := WORKER_ID_LEN + SEQ_LEN

/-- `Snowflake.MAX_WORKER_ID = -1 ^ (-1 << 10) = 1023`. -/
def MAX_WORKER_ID : Int := 1023

/-- `Snowflake.MAX_SEQ = BigInt(-1 ^ (-1 << 12)) = 4095`. -/
def MAX_SEQ : Int := 4095

/-- `Snowflake.toBinaryString`: decimal (or other `BigInt`-accepted)
string to base-2 string, left-padded with zeros to 64 characters when
shorter; `none` when `BigInt(id)` throws. -/
def toBinaryString (id : String) : Option (List Char) :=
  (jsStringToBigInt id).map (fun v =>
    let bin := jsBigIntToString 2 v
    if bin.length < 64 then padStartList 64 '0' bin else bin)

/-- Result record of `Snowflake.parse`. -/
structure Parsed where
  timestamp : Int
  workerId : Int
  sequence : Int
  binary : List Char
deriving DecidableEq

/-- `Snowflake.parse`: binary-string slicing of the 64-bit layout;
`substring(1, 42)` skips the sign bit, then 10 worker bits and the
trailing 12 sequence bits. -/
def parse (id : String) : Option Parsed := do
  let binary ← toBinaryString id
  let t ← parseIntList 2 ((binary.take 42).drop 1)
  let w ← parseIntList 2 ((binary.take 52).drop 42)
  let s ← parseIntList 2 (binary.drop 52)
  pure ⟨t + EPOCH, w, s, binary⟩

/-- Mutable fields of a `Snowflake` instance. -/
structure State where
  workerId : Int
  lastTimestamp : Int
  sequence : Int
deriving DecidableEq

/-- `new Snowflake(workerId, sequence = 0)`: validates the worker id
only, initialises `lastTimestamp = -1` and stores `sequence`
unchecked; a throw is `none`. -/
def construct (workerId : Int) (sequence : Int) : Option State :=
  if workerId < 0 ∨ workerId > MAX_WORKER_ID then none
  else some ⟨workerId, -1, sequence⟩

/-- `Snowflake.getTimestampAndSequence`. -/
def getTimestampAndSequence (st : State) (clock : Nat → Int) (fuel : Nat) : Outcome State :=
  let currentTimestamp := clock 0
  if currentTimestamp < st.lastTimestamp then .clockRegression st
  else if currentTimestamp = st.lastTimestamp then
    let sequence := Int.land (st.sequence + 1) MAX_SEQ
    if sequence = 0 then
      match waitTillNextMillis st.lastTimestamp (fun i => clock (i + 1)) fuel with
      | none => .outOfFuel
      | some ts => .ok ⟨st.workerId, ts, sequence⟩ ts sequence
    else .ok ⟨st.workerId, currentTimestamp, sequence⟩ currentTimestamp sequence
  else .ok ⟨st.workerId, currentTimestamp, 0⟩ currentTimestamp 0

/-- The pure bit composition inside `Snowflake.generateBinary`:
`(timestamp - EPOCH) << 22 | workerId << 12 | sequence` on BigInt. -/
def packBits (timestamp workerId sequence : Int) : Int :=
  Int.lor (Int.lor ((timestamp - EPOCH) <<< (TIMESTAMP_SHIFT : Int)) (workerId <<< (WORKER_ID_SHIFT : Int))) sequence

/-- `Snowflake.generateBinary`. -/
def generateBinary (st : State) (clock : Nat → Int) (fuel : Nat) : GenOutcome State Int :=
  match getTimestampAndSequence st clock fuel with
  | .ok st1 ts sq => .ok st1 (packBits ts st.workerId sq)
  | .clockRegression st1 => .clockRegression st1
  | .outOfFuel => .outOfFuel

/-- `Snowflake.generate`: the decimal string of `generateBinary()`. -/
def generate (st : State) (clock : Nat → Int) (fuel : Nat) : GenOutcome State (List Char) :=
  match generateBinary st clock fuel with
  | .ok st1 v => .ok st1 (jsBigIntToString 10 v)
  | .clockRegression st1 => .clockRegression st1
  | .outOfFuel => .outOfFuel

end Snowflake

namespace UUIDv7

/-- `UUIDv7.UUID7_VERSION = 0b0111`. -/
def UUID7_VERSION : Nat := 7

/-- `UUIDv7.UUID7_VARIANT = 0b10`. -/
def UUID7_VARIANT : Nat := 2

/-- `UUIDv7.VER_LEN`. -/
def VER_LEN : Nat := 4

/-- `UUIDv7.RAND_A_LEN`. -/
def RAND_A_LEN : Nat := 12

/-- `UUIDv7.VAR_LEN`. -/
def VAR_LEN : Nat := 2

/-- `UUIDv7.RAND_B_LEN`. -/
def RAND_B_LEN : Nat := 62

/-- `UUIDv7.TIMESTAMP_SHIFT = BigInt(VER_LEN + RAND_A_LEN)`. -/
def TIMESTAMP_SHIFT : Nat := VER_LEN + RAND_A_LEN

/-- `UUIDv7.MAX_SEQ = -1 ^ (-1 << 12) = 4095`. -/
def MAX_SEQ : Int := 4095

/-- `UUIDv7.RAND_A_MASK = 0xfff`. -/
def RAND_A_MASK : Int := 4095

/-- `UUIDv7.RAND_B_MASK = 0x3fffffffffffffff`. -/
def RAND_B_MASK : Int := 4611686018427387903

/-- `UUIDv7.VER = BigInt(7) << BigInt(12)`. -/
def VER : Int := (7 : Int) <<< (12 : Int)

/-- `UUIDv7.VAR = BigInt(2) << BigInt(62)`. -/
def VAR : Int := (2 : Int) <<< (62 : Int)

/-- `UUIDv7.isValid`: test against the anchored UUID regex. -/
def isValid (uuid : String) : Bool :=
  uuidRegexAccepts uuid

/-- Result record of `UUIDv7.parse` (the one-argument variant returns
`randA`/`randB` as decimal strings). -/
structure Parsed where
  timestamp : Int
  version : Int
  variant : Int
  randA : List Char
  randB : List Char
  binaryLeft : Int
  binaryRight : Int
deriving DecidableEq

/-- `UUIDv7.parse`: reject non-matching strings, strip dashes, read the
two 64-bit halves as hex BigInts and slice the fields off them. -/
def parse (uuid : String) : Option Parsed :=
  if isValid uuid = false then none else
  let hex := uuid.data.filter (fun c => c ≠ '-')
  do
  let left ← jsStringToBigInt (String.mk ('0' :: 'x' :: hex.take 16))
  let right ← jsStringToBigInt (String.mk ('0' :: 'x' :: hex.drop 16))
  pure ⟨left >>> ((TIMESTAMP_SHIFT : Nat) : Int), Int.land (left >>> ((RAND_A_LEN : Nat) : Int)) 15,
        right >>> ((RAND_B_LEN : Nat) : Int),
        jsBigIntToString 10 (Int.land left RAND_A_MASK),
        jsBigIntToString 10 (Int.land right RAND_B_MASK), left, right⟩

/-- Mutable fields of a one-argument `UUIDv7` instance. -/
structure State where
  sequenceOffset : Int
  lastTimestamp : Int
  sequence : Int
deriving DecidableEq

/-- `new UUIDv7(sequence = 0)`: validates the sequence offset. -/
def construct (sequence : Int) : Option State :=
  if sequence < 0 ∨ sequence > 4095 then none
  else some ⟨sequence, -1, sequence⟩

/-- `UUIDv7.getTimestampAndSequence` (one-argument variant): on
sequence overflow, wait and restart from `sequenceOffset`; a fresh
millisecond also restarts from `sequenceOffset`. -/
def getTimestampAndSequence (st : State) (clock : Nat → Int) (fuel : Nat) : Outcome State :=
  let currentTimestamp := clock 0
  if currentTimestamp < st.lastTimestamp then .clockRegression st
  else if currentTimestamp = st.lastTimestamp then
    let sequence := Int.land (st.sequence + 1) MAX_SEQ
    if sequence = 0 then
      match waitTillNextMillis st.lastTimestamp (fun i => clock (i + 1)) fuel with
      | none => .outOfFuel
      | some ts => .ok ⟨st.sequenceOffset, ts, st.sequenceOffset⟩ ts st.sequenceOffset
    else .ok ⟨st.sequenceOffset, currentTimestamp, sequence⟩ currentTimestamp sequence
  else .ok ⟨st.sequenceOffset, currentTimestamp, st.sequenceOffset⟩ currentTimestamp st.sequenceOffset

/-- The pure bit composition inside the one-argument
`UUIDv7.generateBinary`, with the drawn 64-bit random value explicit:
`left = timestamp << 16 | VER | sequence`,
`right = VAR | (random & RAND_B_MASK)`. -/
def packBits (timestamp sequence random : Int) : Int × Int :=
  (Int.lor (Int.lor (timestamp <<< ((TIMESTAMP_SHIFT : Nat) : Int)) VER) sequence,
   Int.lor VAR (Int.land random RAND_B_MASK))

/-- `UUIDv7.generateBinary` (one-argument variant). -/
def generateBinary (st : State) (clock : Nat → Int) (random : Int) (fuel : Nat) :
    GenOutcome State (Int × Int) :=
  match getTimestampAndSequence st clock fuel with
  | .ok st1 ts sq => .ok st1 (packBits ts sq random)
  | .clockRegression st1 => .clockRegression st1
  | .outOfFuel => .outOfFuel

/-- `x.toString(16).padStart(16, "0")`. -/
def hexPad16 (v : Int) : List Char :=
  padStartList 16 '0' (jsBigIntToString 16 v)

/-- String assembly of the one-argument `UUIDv7.generate`: the left
half sliced `8-4-4`, the right half sliced `4-12`, joined by a dash. -/
def formatUUID (left right : Int) : List Char :=
  let l := hexPad16 left
  let r := hexPad16 right
  (l.take 8) ++ '-' :: ((l.take 12).drop 8) ++ '-' :: (l.drop 12) ++ '-' :: (r.take 4) ++ '-' :: (r.drop 4)

/-- `UUIDv7.generate` (one-argument variant). -/
def generate (st : State) (clock : Nat → Int) (random : Int) (fuel : Nat) :
    GenOutcome State (List Char) :=
  match generateBinary st clock random fuel with
  | .ok st1 (l, r) => .ok st1 (formatUUID l r)
  | .clockRegression st1 => .clockRegression st1
  | .outOfFuel => .outOfFuel

end UUIDv7

namespace UUIDv7Worker

/-- `UUIDv7.VER_LEN` (two-argument variant). -/
def VER_LEN : Nat := 4

/-- `UUIDv7.RAND_A_LEN`. -/
def RAND_A_LEN : Nat := 12

/-- `UUIDv7.RAND_B_TOTAL_LEN`. -/
def RAND_B_TOTAL_LEN : Nat := 62

/-- `UUIDv7.WORKER_ID_LEN`. -/
def WORKER_ID_LEN : Nat := 10

/-- `UUIDv7.SEQ_LEN`. -/
def SEQ_LEN : Nat := 12

/-- `UUIDv7.RAND_B_LEN = 40`. -/
def RAND_B_LEN : Nat := 40

/-- `UUIDv7.TIMESTAMP_SHIFT = BigInt(4 + 12)`. -/
def TIMESTAMP_SHIFT : Nat := VER_LEN + RAND_A_LEN

/-- `UUIDv7.WORKER_ID_SHIFT = BigInt(12 + 40)`. -/
def WORKER_ID_SHIFT : Nat := SEQ_LEN + RAND_B_LEN

/-- `UUIDv7.SEQ_SHIFT = BigInt(40)`. -/
def SEQ_SHIFT : Nat := RAND_B_LEN

/-- `UUIDv7.MAX_WORKER_ID = 1023`. -/
def MAX_WORKER_ID : Int := 1023

/-- `UUIDv7.MAX_SEQ = 4095`. -/
def MAX_SEQ : Int := 4095

/-- `UUIDv7.VER = BigInt(7) << BigInt(12)`. -/
def VER : Int := (7 : Int) <<< (12 : Int)

/-- `UUIDv7.VAR = BigInt(2) << BigInt(10 + 12 + 40)`. -/
def VAR : Int := (2 : Int) <<< (62 : Int)

/-- `UUIDv7.isValidUUID`: same anchored regex as the other variant. -/
def isValidUUID (uuid : String) : Bool :=
  uuidRegexAccepts uuid

/-- Result record of the two-argument `UUIDv7.parse`. -/
structure Parsed where
  timestamp : Int
  version : Int
  variant : Int
  binaryLeft : Int
  binaryRight : Int
deriving DecidableEq

/-- `UUIDv7.parse` (two-argument variant). -/
def parse (uuid : String) : Option Parsed :=
  if isValidUUID uuid = false then none else
  let hex := uuid.data.filter (fun c => c ≠ '-')
  do
  let left ← jsStringToBigInt (String.mk ('0' :: 'x' :: hex.take 16))
  let right ← jsStringToBigInt (String.mk ('0' :: 'x' :: hex.drop 16))
  pure ⟨left >>> ((TIMESTAMP_SHIFT : Nat) : Int), Int.land (left >>> ((RAND_A_LEN : Nat) : Int)) 15,
        right >>> ((RAND_B_TOTAL_LEN : Nat) : Int), left, right⟩

/-- Mutable fields of a two-argument `UUIDv7` instance. -/
structure State where
  workerId : Int
  lastTimestamp : Int
  sequence : Int
deriving DecidableEq

/-- `new UUIDv7(workerId = 0, sequence = 0)`: validates both
arguments. -/
def construct (workerId : Int) (sequence : Int) : Option State :=
  if workerId < 0 ∨ workerId > MAX_WORKER_ID then none
  else if sequence < 0 ∨ sequence > 4095 then none
  else some ⟨workerId, -1, sequence⟩

/-- `UUIDv7.getTimestampAndSequence` (two-argument variant): identical
to the Snowflake sequencer, with the sequence restarting from `0`. -/
def getTimestampAndSequence (st : State) (clock : Nat → Int) (fuel : Nat) : Outcome State :=
  let currentTimestamp := clock 0
  if currentTimestamp < st.lastTimestamp then .clockRegression st
  else if currentTimestamp = st.lastTimestamp then
    let sequence := Int.land (st.sequence + 1) MAX_SEQ
    if sequence = 0 then
      match waitTillNextMillis st.lastTimestamp (fun i => clock (i + 1)) fuel with
      | none => .outOfFuel
      | some ts => .ok ⟨st.workerId, ts, sequence⟩ ts sequence
    else .ok ⟨st.workerId, currentTimestamp, sequence⟩ currentTimestamp sequence
  else .ok ⟨st.workerId, currentTimestamp, 0⟩ currentTimestamp 0

/-- `getRandomByte` (two-argument variant): bottom 12 bits for
`rand_a`, top 40 bits (shift by 24) for `rand_b`. -/
def getRandomByte (random : Int) : Int × Int :=
  (Int.land random 4095, random >>> ((24 : Nat) : Int))

/-- The pure bit composition inside the two-argument
`UUIDv7.generateBinary`:
`left = timestamp << 16 | VER | randA`,
`right = VAR | workerId << 52 | sequence << 40 | randB`. -/
def packBits (timestamp workerId sequence randA randB : Int) : Int × Int :=
  (Int.lor (Int.lor (timestamp <<< ((TIMESTAMP_SHIFT : Nat) : Int)) VER) randA,
   Int.lor (Int.lor (Int.lor VAR (workerId <<< ((WORKER_ID_SHIFT : Nat) : Int)))
     (sequence <<< ((SEQ_SHIFT : Nat) : Int))) randB)

/-- `UUIDv7.generateBinary` (two-argument variant). -/
def generateBinary (st : State) (clock : Nat → Int) (random : Int) (fuel : Nat) :
    GenOutcome State (Int × Int) :=
  match getTimestampAndSequence st clock fuel with
  | .ok st1 ts sq =>
    let ab := getRandomByte random
    .ok st1 (packBits ts st.workerId sq ab.1 ab.2)
  | .clockRegression st1 => .clockRegression st1
  | .outOfFuel => .outOfFuel

/-- `x.toString(16).padStart(16, "0")`. -/
def hexPad16 (v : Int) : List Char :=
  padStartList 16 '0' (jsBigIntToString 16 v)

/-- String assembly of the two-argument `UUIDv7.generate`: the
concatenated 32 hex characters sliced `8-4-4-4-12`. -/
def formatUUID (left right : Int) : List Char :=
  let u := hexPad16 left ++ hexPad16 right
  (u.take 8) ++ '-' :: ((u.take 12).drop 8) ++ '-' :: ((u.take 16).drop 12) ++ '-' :: ((u.take 20).drop 16) ++ '-' :: (u.drop 20)

/-- `UUIDv7.generate` (two-argument variant). -/
def generate (st : State) (clock : Nat → Int) (random : Int) (fuel : Nat) :
    GenOutcome State (List Char) :=
  match generateBinary st clock random fuel with
  | .ok st1 (l, r) => .ok st1 (formatUUID l r)
  | .clockRegression st1 => .clockRegression st1
  | .outOfFuel => .outOfFuel

end UUIDv7Worker

example : Snowflake.construct 1 0 = some ⟨1, -1, 0⟩ := by decide

example : Snowflake.packBits (Snowflake.EPOCH + 3) 1 2 = 3 * 4194304 + 4096 + 2 := by decide

/-! ### Digit characters -/

theorem jsDigitChar_lt_all : ∀ d1 d2 : Fin 16, d1.val < d2.val → jsDigitChar d1.val < jsDigitChar d2.val := by decide

theorem jsDigitChar_lt {d1 d2 : Nat} (h1 : d1 < d2) (h2 : d2 < 16) : jsDigitChar d1 < jsDigitChar d2 :=
  jsDigitChar_lt_all ⟨d1, by omega⟩ ⟨d2, h2⟩ h1

theorem digitVal?_jsDigitChar_all : ∀ d : Fin 16, digitVal? (jsDigitChar d.val) = some d.val := by decide

theorem digitVal?_jsDigitChar {d : Nat} (h : d < 16) : digitVal? (jsDigitChar d) = some d :=
  digitVal?_jsDigitChar_all ⟨d, h⟩

theorem isRadixDigit_jsDigitChar {B d : Nat} (h : d < B) (hB : B ≤ 16) : isRadixDigit B (jsDigitChar d) = true := by
  have h16 : d < 16 := by omega
  unfold isRadixDigit
  rw [digitVal?_jsDigitChar h16]
  simpa using h

theorem jsDigitChar_ne_dash_all : ∀ d : Fin 16, jsDigitChar d.val ≠ '-' := by decide

theorem jsDigitChar_ne_dash {d : Nat} (h : d < 16) : jsDigitChar d ≠ '-' :=
  jsDigitChar_ne_dash_all ⟨d, h⟩

theorem jsDigitChar_ne_plus_all : ∀ d : Fin 16, jsDigitChar d.val ≠ '+' := by decide

theorem jsDigitChar_ne_plus {d : Nat} (h : d < 16) : jsDigitChar d ≠ '+' :=
  jsDigitChar_ne_plus_all ⟨d, h⟩

theorem digit_code_ge {B : Nat} {c : Char} (h : isRadixDigit B c = true) : 48 ≤ c.toNat := by
  unfold isRadixDigit digitVal? at h
  by_cases h1 : 48 ≤ c.toNat ∧ c.toNat ≤ 57
  · omega
  · rw [if_neg h1] at h
    by_cases h2 : 97 ≤ c.toNat ∧ c.toNat ≤ 102
    · omega
    · rw [if_neg h2] at h
      by_cases h3 : 65 ≤ c.toNat ∧ c.toNat ≤ 70
      · omega
      · rw [if_neg h3] at h
        simp at h

theorem isJsSpace_of_digit {B : Nat} {c : Char} (h : isRadixDigit B c = true) : isJsSpace c = false := by
  have := digit_code_ge h
  unfold isJsSpace
  simp only [decide_eq_false_iff_not]
  omega

/-! ### Minimal digit strings -/

theorem natToDigitsGo_congr {B : Nat} (hB : 2 ≤ B) (n : Nat) : ∀ f1 f2, n < f1 → n < f2 → natToDigitsGo B f1 n = natToDigitsGo B f2 n := by
  induction n using Nat.strong_induction_on with
  | _ n ih =>
    intro f1 f2 h1 h2
    match f1, f2 with
    | g1+1, g2+1 =>
      simp only [natToDigitsGo]
      split
      · rfl
      · rename_i hnB
        have hdiv : n / B < n := Nat.div_lt_self (by omega) (by omega)
        rw [ih (n / B) hdiv g1 g2 (by omega) (by omega)]

theorem natToDigits_base {B n : Nat} (h : n < B) : natToDigits B n = [jsDigitChar n] := by
  unfold natToDigits natToDigitsGo
  simp [h]

theorem natToDigits_step {B n : Nat} (hB : 2 ≤ B) (h : B ≤ n) : natToDigits B n = natToDigits B (n / B) ++ [jsDigitChar (n % B)] := by
  have hdiv : n / B < n := Nat.div_lt_self (by omega) (by omega)
  unfold natToDigits
  conv_lhs => rw [natToDigitsGo]
  rw [if_neg (by omega)]
  rw [natToDigitsGo_congr hB (n / B) n (n / B + 1) (by omega) (by omega)]

theorem natToDigits_ne_nil {B n : Nat} (hB : 2 ≤ B) : natToDigits B n ≠ [] := by
  by_cases h : n < B
  · rw [natToDigits_base h]
    simp
  · rw [natToDigits_step hB (by omega)]
    simp

theorem natToDigits_all_digits {B : Nat} (hB : 2 ≤ B) (hB16 : B ≤ 16) (n : Nat) :
    ∀ c ∈ natToDigits B n, isRadixDigit B c = true := by
  induction n using Nat.strong_induction_on with
  | _ n ih =>
    by_cases h : n < B
    · rw [natToDigits_base h]
      intro c hc
      simp only [List.mem_singleton] at hc
      subst hc
      exact isRadixDigit_jsDigitChar h hB16
    · rw [natToDigits_step hB (by omega)]
      intro c hc
      rcases List.mem_append.mp hc with hc | hc
      · exact ih (n / B) (Nat.div_lt_self (by omega) (by omega)) c hc
      · simp only [List.mem_singleton] at hc
        subst hc
        exact isRadixDigit_jsDigitChar (Nat.mod_lt _ (by omega)) hB16

theorem foldDigits_append_one (B : Nat) (l : List Char) (c : Char) :
    foldDigits B (l ++ [c]) = foldDigits B l * B + ((digitVal? c).getD 0) := by
  unfold foldDigits
  rw [List.foldl_append]
  rfl

theorem foldDigits_natToDigits {B : Nat} (hB : 2 ≤ B) (hB16 : B ≤ 16) (n : Nat) :
    foldDigits B (natToDigits B n) = n := by
  induction n using Nat.strong_induction_on with
  | _ n ih =>
    by_cases h : n < B
    · rw [natToDigits_base h]
      unfold foldDigits
      simp [digitVal?_jsDigitChar (by omega : n < 16)]
    · have hmod : n % B < B := Nat.mod_lt _ (by omega)
      rw [natToDigits_step hB (by omega), foldDigits_append_one,
        ih (n / B) (Nat.div_lt_self (by omega) (by omega)),
        digitVal?_jsDigitChar (by omega : n % B < 16)]
      simp only [Option.getD_some]
      have h1 := Nat.div_add_mod n B
      have h2 : n / B * B = B * (n / B) := Nat.mul_comm _ _
      omega

theorem natToDigits_length_le {B : Nat} (hB : 2 ≤ B) : ∀ k n, n < B ^ k → 1 ≤ k → (natToDigits B n).length ≤ k := by
  intro k
  induction k with
  | zero => omega
  | succ k ihk =>
    intro n hn _
    by_cases h : n < B
    · rw [natToDigits_base h]
      simp
    · have hk1 : 1 ≤ k := by
        by_contra hk0
        have : k = 0 := by omega
        subst this
        simp at hn
        omega
      rw [natToDigits_step hB (by omega)]
      have : n / B < B ^ k := by
        rw [Nat.div_lt_iff_lt_mul (by omega)]
        calc n < B ^ (k + 1) := hn
        _ = B ^ k * B := by ring
      have := ihk (n / B) this hk1
      simp only [List.length_append, List.length_cons, List.length_nil]
      omega

/-! ### Fixed-width digit strings -/

theorem fixedDigits_length (B : Nat) : ∀ k n, (fixedDigits B k n).length = k := by
  intro k
  induction k with
  | zero => intro n; rfl
  | succ k ih =>
    intro n
    simp only [fixedDigits, List.length_append, ih, List.length_cons, List.length_nil]

theorem fixedDigits_zero_val (B : Nat) (hB : 2 ≤ B) : ∀ k, fixedDigits B k 0 = List.replicate k '0' := by
  intro k
  induction k with
  | zero => rfl
  | succ k ih =>
    show fixedDigits B k (0 / B) ++ [jsDigitChar (0 % B)] = _
    rw [Nat.zero_div, Nat.zero_mod, ih, List.replicate_succ']
    rfl

theorem padStart_natToDigits {B : Nat} (hB : 2 ≤ B) : ∀ k n, n < B ^ k → 1 ≤ k →
    padStartList k '0' (natToDigits B n) = fixedDigits B k n := by
  intro k
  induction k with
  | zero => omega
  | succ k ih =>
    intro n hn _
    by_cases h : n < B
    · rw [natToDigits_base h]
      show List.replicate (k + 1 - 1) '0' ++ [jsDigitChar n] = fixedDigits B k (n / B) ++ [jsDigitChar (n % B)]
      rw [Nat.div_eq_of_lt h, Nat.mod_eq_of_lt h, fixedDigits_zero_val B hB k]
      rfl
    · have hk1 : 1 ≤ k := by
        by_contra hk0
        have hkz : k = 0 := by omega
        subst hkz
        simp at hn
        omega
      have hdivlt : n / B < B ^ k := by
        rw [Nat.div_lt_iff_lt_mul (by omega)]
        calc n < B ^ (k + 1) := hn
        _ = B ^ k * B := by ring
      rw [natToDigits_step hB (by omega)]
      have ih' := ih (n / B) hdivlt hk1
      unfold padStartList at ih'
      unfold padStartList
      rw [show (natToDigits B (n / B) ++ [jsDigitChar (n % B)]).length = (natToDigits B (n / B)).length + 1 by simp]
      rw [Nat.succ_sub_succ, ← List.append_assoc, ih']
      rfl

theorem fixedDigits_append (B : Nat) (hB : 2 ≤ B) (a : Nat) : ∀ b n,
    fixedDigits B (a + b) n = fixedDigits B a (n / B ^ b) ++ fixedDigits B b (n % B ^ b) := by
  intro b
  induction b with
  | zero =>
    intro n
    simp [fixedDigits, Nat.mod_one]
  | succ b ih =>
    intro n
    show fixedDigits B (a + b) (n / B) ++ [jsDigitChar (n % B)] = _
    rw [ih (n / B)]
    have hpow : B ^ (b + 1) = B * B ^ b := by ring
    have e1 : n / B / B ^ b = n / B ^ (b + 1) := by
      rw [Nat.div_div_eq_div_mul, ← hpow]
    have e2 : n / B % B ^ b = n % B ^ (b + 1) / B := by
      rw [hpow]
      exact (Nat.mod_mul_right_div_self n B (B ^ b)).symm
    have e3 : n % B = n % B ^ (b + 1) % B := by
      rw [Nat.mod_mod_of_dvd n (dvd_pow_self B (Nat.succ_ne_zero b))]
    calc fixedDigits B a (n / B / B ^ b) ++ fixedDigits B b (n / B % B ^ b) ++ [jsDigitChar (n % B)]
        = fixedDigits B a (n / B ^ (b + 1)) ++ (fixedDigits B b (n % B ^ (b + 1) / B) ++ [jsDigitChar (n % B ^ (b + 1) % B)]) := by
          rw [e1, e2, e3, List.append_assoc]
    _ = fixedDigits B a (n / B ^ (b + 1)) ++ fixedDigits B (b + 1) (n % B ^ (b + 1)) := rfl

theorem foldDigits_fixedDigits {B : Nat} (hB : 2 ≤ B) (hB16 : B ≤ 16) : ∀ k n, n < B ^ k →
    foldDigits B (fixedDigits B k n) = n := by
  intro k
  induction k with
  | zero =>
    intro n hn
    simp at hn
    subst hn
    rfl
  | succ k ih =>
    intro n hn
    have hdivlt : n / B < B ^ k := by
      rw [Nat.div_lt_iff_lt_mul (by omega)]
      calc n < B ^ (k + 1) := hn
      _ = B ^ k * B := by ring
    show foldDigits B (fixedDigits B k (n / B) ++ [jsDigitChar (n % B)]) = n
    have hmod16 : n % B < 16 := by
      have := Nat.mod_lt n (show 0 < B by omega)
      omega
    rw [foldDigits_append_one, ih (n / B) hdivlt, digitVal?_jsDigitChar hmod16]
    simp only [Option.getD_some]
    have h1 := Nat.div_add_mod n B
    have h2 : n / B * B = B * (n / B) := Nat.mul_comm _ _
    omega

theorem fixedDigits_all_digits {B : Nat} (hB : 2 ≤ B) (hB16 : B ≤ 16) : ∀ k n c, c ∈ fixedDigits B k n →
    isRadixDigit B c = true := by
  intro k
  induction k with
  | zero =>
    intro n c hc
    cases hc
  | succ k ih =>
    intro n c hc
    rcases List.mem_append.mp hc with hc | hc
    · exact ih (n / B) c hc
    · simp only [List.mem_singleton] at hc
      subst hc
      exact isRadixDigit_jsDigitChar (Nat.mod_lt _ (by omega)) hB16

/-! ### Lexicographic order on character lists -/

/-- Abbreviation for the strict lexicographic order on char lists that
underlies the order on `String`. -/
def LexLt (l1 l2 : List Char) : Prop :=
  List.Lex (fun a b : Char => a < b) l1 l2

theorem string_lt_iff_lex {s t : String} : s < t ↔ LexLt s.data t.data := by
  rw [String.lt_iff_toList_lt]
  exact Iff.rfl

theorem lex_cons_iff {a b : Char} {as bs : List Char} :
    LexLt (a :: as) (b :: bs) ↔ a < b ∨ (a = b ∧ LexLt as bs) := by
  constructor
  · intro h
    cases h with
    | cons h => exact Or.inr ⟨rfl, h⟩
    | rel h => exact Or.inl h
  · rintro (h | ⟨heq, h⟩)
    · exact List.Lex.rel h
    · subst heq
      exact List.Lex.cons h

theorem lex_append_iff {as : List Char} : ∀ {bs : List Char} (cs ds : List Char), as.length = bs.length →
    (LexLt (as ++ cs) (bs ++ ds) ↔ LexLt as bs ∨ (as = bs ∧ LexLt cs ds)) := by
  induction as with
  | nil =>
    intro bs cs ds h
    have hbs : bs = [] := by
      cases bs
      · rfl
      · simp at h
    subst hbs
    simp only [List.nil_append]
    constructor
    · intro h'
      exact Or.inr ⟨by trivial, h'⟩
    · intro h'
      rcases h' with h' | ⟨_, h'⟩
      · exact absurd h' (List.Lex.not_nil_right _ _)
      · exact h'
  | cons a as ih =>
    intro bs cs ds h
    cases bs with
    | nil => simp at h
    | cons b bs =>
      simp only [List.cons_append]
      rw [lex_cons_iff, lex_cons_iff, ih cs ds (by simpa using h)]
      constructor
      · rintro (hab | ⟨heq, h1 | ⟨heq2, h2⟩⟩)
        · exact Or.inl (Or.inl hab)
        · exact Or.inl (Or.inr ⟨heq, h1⟩)
        · subst heq
          subst heq2
          exact Or.inr ⟨rfl, h2⟩
      · rintro ((hab | ⟨heq, h1⟩) | ⟨heq, h2⟩)
        · exact Or.inl hab
        · exact Or.inr ⟨heq, Or.inl h1⟩
        · cases heq
          exact Or.inr ⟨rfl, Or.inr ⟨rfl, h2⟩⟩

theorem fixedDigits_lt {B : Nat} (hB : 2 ≤ B) (hB16 : B ≤ 16) : ∀ k x y, x < y → y < B ^ k →
    LexLt (fixedDigits B k x) (fixedDigits B k y) := by
  intro k
  induction k with
  | zero =>
    intro x y hxy hy
    simp at hy
    omega
  | succ k ih =>
    intro x y hxy hy
    show LexLt (fixedDigits B k (x / B) ++ [jsDigitChar (x % B)]) (fixedDigits B k (y / B) ++ [jsDigitChar (y % B)])
    rw [lex_append_iff _ _ (by rw [fixedDigits_length, fixedDigits_length])]
    rcases Nat.lt_or_ge (x / B) (y / B) with hdiv | hdiv
    · refine Or.inl (ih (x / B) (y / B) hdiv ?_)
      rw [Nat.div_lt_iff_lt_mul (by omega)]
      calc y < B ^ (k + 1) := hy
      _ = B ^ k * B := by ring
    · have hdeq : x / B = y / B := le_antisymm (Nat.div_le_div_right (le_of_lt hxy)) hdiv
      have hx := Nat.div_add_mod x B
      have hy' := Nat.div_add_mod y B
      rw [hdeq] at hx
      have hmod : x % B < y % B := by omega
      refine Or.inr ⟨by rw [hdeq], ?_⟩
      have hyB : y % B < 16 := by
        have := Nat.mod_lt y (show 0 < B by omega)
        omega
      exact List.Lex.rel (jsDigitChar_lt hmod hyB)

/-! ### Bridging BigInt bit operations to arithmetic -/

theorem int_land_coe (a b : Nat) : Int.land (a : Int) (b : Int) = ((a &&& b : Nat) : Int) := rfl

theorem int_lor_coe (a b : Nat) : Int.lor (a : Int) (b : Int) = ((a ||| b : Nat) : Int) := rfl

theorem int_land_negSucc_coe (m b : Nat) : Int.land (Int.negSucc m) (b : Int) = ((Nat.ldiff b m : Nat) : Int) := rfl

theorem int_land_pow2m1 {x : Int} (h : 0 ≤ x) (n : Nat) : Int.land x (2 ^ n - 1) = x % 2 ^ n := by
  obtain ⟨a, rfl⟩ := Int.eq_ofNat_of_zero_le h
  have hpos := Nat.two_pow_pos n
  have hcast : ((2 : Int) ^ n - 1) = ((2 ^ n - 1 : Nat) : Int) := by
    push_cast [Nat.cast_sub (by omega : 1 ≤ 2 ^ n)]
    ring
  rw [hcast, int_land_coe, Nat.and_pow_two_sub_one_eq_mod]
  push_cast [Int.natCast_mod]
  ring

theorem int_land_pow2m1_bounds (x : Int) (n : Nat) :
    0 ≤ Int.land x (2 ^ n - 1) ∧ Int.land x (2 ^ n - 1) ≤ 2 ^ n - 1 := by
  have hpos := Nat.two_pow_pos n
  have hcast : ((2 : Int) ^ n - 1) = ((2 ^ n - 1 : Nat) : Int) := by
    push_cast [Nat.cast_sub (by omega : 1 ≤ 2 ^ n)]
    ring
  cases x with
  | ofNat a =>
    rw [hcast]
    have e : Int.land (Int.ofNat a) ((2 ^ n - 1 : Nat) : Int) = ((a &&& (2 ^ n - 1) : Nat) : Int) := rfl
    rw [e]
    have hle : a &&& (2 ^ n - 1) ≤ 2 ^ n - 1 := Nat.and_le_right
    constructor
    · exact Int.natCast_nonneg _
    · exact_mod_cast hle
  | negSucc m =>
    rw [hcast, int_land_negSucc_coe]
    have hle : Nat.ldiff (2 ^ n - 1) m ≤ 2 ^ n - 1 := by
      apply Nat.le_of_testBit
      intro i hi
      rw [Nat.testBit_ldiff] at hi
      rw [Bool.and_eq_true] at hi
      exact hi.1
    constructor
    · exact Int.natCast_nonneg _
    · exact_mod_cast hle

theorem int_shiftLeft_eq (x : Int) (k : Nat) : x <<< ((k : Nat) : Int) = x * 2 ^ k := by
  rw [Int.shiftLeft_eq_mul_pow]
  norm_cast

theorem int_shiftRight_eq {x : Int} (h : 0 ≤ x) (k : Nat) : x >>> ((k : Nat) : Int) = x / 2 ^ k := by
  obtain ⟨a, rfl⟩ := Int.eq_ofNat_of_zero_le h
  rw [Int.shiftRight_coe_nat, Nat.shiftRight_eq_div_pow]
  push_cast [Int.natCast_div]
  ring

theorem int_lor_shift_add {x y : Int} (k : Nat) (hx : 0 ≤ x) (hy0 : 0 ≤ y) (hy : y < 2 ^ k) :
    Int.lor (x * 2 ^ k) y = x * 2 ^ k + y := by
  obtain ⟨a, rfl⟩ := Int.eq_ofNat_of_zero_le hx
  obtain ⟨b, rfl⟩ := Int.eq_ofNat_of_zero_le hy0
  have hb : b < 2 ^ k := by exact_mod_cast hy
  have key : 2 ^ k * a + b = 2 ^ k * a ||| b := Nat.mul_add_lt_is_or hb a
  have hcast : ((a : Int)) * 2 ^ k = ((a * 2 ^ k : Nat) : Int) := by
    push_cast
    ring
  rw [hcast, int_lor_coe]
  have e2 : a * 2 ^ k ||| b = a * 2 ^ k + b := by
    rw [Nat.mul_comm a (2 ^ k), ← key]
  rw [e2]
  push_cast
  rfl

/-! ### Sequencer step lemmas -/

theorem wait_some {last : Int} : ∀ (fuel : Nat) (clock : Nat → Int) (t : Int),
    waitTillNextMillis last clock fuel = some t → last < t ∧ ∃ i, t = clock i := by
  intro fuel
  induction fuel with
  | zero =>
    intro clock t h
    exact absurd h (by simp [waitTillNextMillis])
  | succ fuel ih =>
    intro clock t h
    rw [waitTillNextMillis] at h
    by_cases hc : clock 0 ≤ last
    · rw [if_pos hc] at h
      obtain ⟨h1, i, h2⟩ := ih _ t h
      exact ⟨h1, ⟨i + 1, h2⟩⟩
    · rw [if_neg hc] at h
      injection h with h
      exact ⟨by omega, ⟨0, h.symm⟩⟩

theorem snowflake_step_ok_inv {st st1 : Snowflake.State} {clock : Nat → Int} {fuel : Nat} {t s : Int}
    (h : Snowflake.getTimestampAndSequence st clock fuel = .ok st1 t s) :
    st1 = ⟨st.workerId, t, s⟩ ∧
    ((st.lastTimestamp < clock 0 ∧ t = clock 0 ∧ s = 0) ∨
     (clock 0 = st.lastTimestamp ∧ s = Int.land (st.sequence + 1) 4095 ∧ s ≠ 0 ∧ t = clock 0) ∨
     (clock 0 = st.lastTimestamp ∧ s = 0 ∧ Int.land (st.sequence + 1) 4095 = 0 ∧
       waitTillNextMillis st.lastTimestamp (fun i => clock (i + 1)) fuel = some t)) := by
  simp only [Snowflake.getTimestampAndSequence, Snowflake.MAX_SEQ] at h
  split at h
  · cases h
  · split at h
    · rename_i hlt heq
      split at h
      · rename_i hwrap
        split at h
        · cases h
        · rename_i ts hw
          injection h with e1 e2 e3
          subst e2
          subst e3
          exact ⟨e1.symm, Or.inr (Or.inr ⟨heq, hwrap, hwrap, hw⟩)⟩
      · rename_i hwrap
        injection h with e1 e2 e3
        subst e2
        subst e3
        exact ⟨e1.symm, Or.inr (Or.inl ⟨heq, rfl, hwrap, rfl⟩)⟩
    · rename_i hlt hne
      injection h with e1 e2 e3
      subst e2
      subst e3
      exact ⟨e1.symm, Or.inl ⟨by omega, rfl, rfl⟩⟩

theorem uuid7_step_ok_inv {st st1 : UUIDv7.State} {clock : Nat → Int} {fuel : Nat} {t s : Int}
    (h : UUIDv7.getTimestampAndSequence st clock fuel = .ok st1 t s) :
    st1 = ⟨st.sequenceOffset, t, s⟩ ∧
    ((st.lastTimestamp < clock 0 ∧ t = clock 0 ∧ s = st.sequenceOffset) ∨
     (clock 0 = st.lastTimestamp ∧ s = Int.land (st.sequence + 1) 4095 ∧ s ≠ 0 ∧ t = clock 0) ∨
     (clock 0 = st.lastTimestamp ∧ s = st.sequenceOffset ∧ Int.land (st.sequence + 1) 4095 = 0 ∧
       waitTillNextMillis st.lastTimestamp (fun i => clock (i + 1)) fuel = some t)) := by
  simp only [UUIDv7.getTimestampAndSequence, UUIDv7.MAX_SEQ] at h
  split at h
  · cases h
  · split at h
    · rename_i hlt heq
      split at h
      · rename_i hwrap
        split at h
        · cases h
        · rename_i ts hw
          injection h with e1 e2 e3
          subst e2
          subst e3
          exact ⟨e1.symm, Or.inr (Or.inr ⟨heq, rfl, hwrap, hw⟩)⟩
      · rename_i hwrap
        injection h with e1 e2 e3
        subst e2
        subst e3
        exact ⟨e1.symm, Or.inr (Or.inl ⟨heq, rfl, hwrap, rfl⟩)⟩
    · rename_i hlt hne
      injection h with e1 e2 e3
      subst e2
      subst e3
      exact ⟨e1.symm, Or.inl ⟨by omega, rfl, rfl⟩⟩

theorem uuid7w_step_ok_inv {st st1 : UUIDv7Worker.State} {clock : Nat → Int} {fuel : Nat} {t s : Int}
    (h : UUIDv7Worker.getTimestampAndSequence st clock fuel = .ok st1 t s) :
    st1 = ⟨st.workerId, t, s⟩ ∧
    ((st.lastTimestamp < clock 0 ∧ t = clock 0 ∧ s = 0) ∨
     (clock 0 = st.lastTimestamp ∧ s = Int.land (st.sequence + 1) 4095 ∧ s ≠ 0 ∧ t = clock 0) ∨
     (clock 0 = st.lastTimestamp ∧ s = 0 ∧ Int.land (st.sequence + 1) 4095 = 0 ∧
       waitTillNextMillis st.lastTimestamp (fun i => clock (i + 1)) fuel = some t)) := by
  simp only [UUIDv7Worker.getTimestampAndSequence, UUIDv7Worker.MAX_SEQ] at h
  split at h
  · cases h
  · split at h
    · rename_i hlt heq
      split at h
      · rename_i hwrap
        split at h
        · cases h
        · rename_i ts hw
          injection h with e1 e2 e3
          subst e2
          subst e3
          exact ⟨e1.symm, Or.inr (Or.inr ⟨heq, hwrap, hwrap, hw⟩)⟩
      · rename_i hwrap
        injection h with e1 e2 e3
        subst e2
        subst e3
        exact ⟨e1.symm, Or.inr (Or.inl ⟨heq, rfl, hwrap, rfl⟩)⟩
    · rename_i hlt hne
      injection h with e1 e2 e3
      subst e2
      subst e3
      exact ⟨e1.symm, Or.inl ⟨by omega, rfl, rfl⟩⟩

theorem snowflake_step_clock_regression {st : Snowflake.State} {clock : Nat → Int} {fuel : Nat}
    (h : clock 0 < st.lastTimestamp) :
    Snowflake.getTimestampAndSequence st clock fuel = .clockRegression st := by
  simp only [Snowflake.getTimestampAndSequence]
  rw [if_pos h]

theorem uuid7_step_clock_regression {st : UUIDv7.State} {clock : Nat → Int} {fuel : Nat}
    (h : clock 0 < st.lastTimestamp) :
    UUIDv7.getTimestampAndSequence st clock fuel = .clockRegression st := by
  simp only [UUIDv7.getTimestampAndSequence]
  rw [if_pos h]

theorem uuid7w_step_clock_regression {st : UUIDv7Worker.State} {clock : Nat → Int} {fuel : Nat}
    (h : clock 0 < st.lastTimestamp) :
    UUIDv7Worker.getTimestampAndSequence st clock fuel = .clockRegression st := by
  simp only [UUIDv7Worker.getTimestampAndSequence]
  rw [if_pos h]

/-! ### Pack arithmetic -/

theorem snowflake_packBits_eq {t w s : Int} (ht : Snowflake.EPOCH ≤ t) (hw0 : 0 ≤ w) (hw : w ≤ 1023)
    (hs0 : 0 ≤ s) (hs : s ≤ 4095) :
    Snowflake.packBits t w s = (t - Snowflake.EPOCH) * 4194304 + w * 4096 + s := by
  unfold Snowflake.packBits
  rw [show ((Snowflake.TIMESTAMP_SHIFT : Nat) : Int) = ((22 : Nat) : Int) from rfl,
      show ((Snowflake.WORKER_ID_SHIFT : Nat) : Int) = ((12 : Nat) : Int) from rfl,
      int_shiftLeft_eq, int_shiftLeft_eq]
  have h1 : Int.lor ((t - Snowflake.EPOCH) * 2 ^ 22) (w * 2 ^ 12) = (t - Snowflake.EPOCH) * 2 ^ 22 + w * 2 ^ 12 := by
    apply int_lor_shift_add 22
    · have : (0 : Int) ≤ t - Snowflake.EPOCH := by omega
      exact this
    · exact mul_nonneg hw0 (by norm_num)
    · have hle : w * 2 ^ 12 ≤ 1023 * 2 ^ 12 := mul_le_mul_of_nonneg_right hw (by norm_num)
      have h22 : (1023 : Int) * 2 ^ 12 < 2 ^ 22 := by norm_num
      exact lt_of_le_of_lt hle h22
  rw [h1]
  have h2 : (t - Snowflake.EPOCH) * 2 ^ 22 + w * 2 ^ 12 = ((t - Snowflake.EPOCH) * 2 ^ 10 + w) * 2 ^ 12 := by ring
  rw [h2]
  have h3 : (0 : Int) ≤ (t - Snowflake.EPOCH) * 2 ^ 10 + w := by
    have : (0 : Int) ≤ (t - Snowflake.EPOCH) * 2 ^ 10 := mul_nonneg (by omega) (by norm_num)
    omega
  rw [int_lor_shift_add 12 h3 hs0 (show s < 2 ^ 12 by norm_num; omega)]
  ring

theorem uuid7_VER_eq : UUIDv7.VER = 28672 := by decide

theorem uuid7_VAR_eq : UUIDv7.VAR = 9223372036854775808 := by decide

theorem uuid7_packBits_eq {ts sq random : Int} (hts : 0 ≤ ts) (hsq0 : 0 ≤ sq) (hsq : sq ≤ 4095) :
    UUIDv7.packBits ts sq random =
      (ts * 65536 + 28672 + sq, 9223372036854775808 + Int.land random UUIDv7.RAND_B_MASK) := by
  unfold UUIDv7.packBits
  rw [show ((UUIDv7.TIMESTAMP_SHIFT : Nat) : Int) = ((16 : Nat) : Int) from rfl, int_shiftLeft_eq]
  rw [uuid7_VER_eq]
  have h1 : Int.lor (ts * 2 ^ 16) 28672 = ts * 2 ^ 16 + 28672 := by
    apply int_lor_shift_add 16 hts (by norm_num)
    norm_num
  rw [h1]
  have h2 : ts * 2 ^ 16 + 28672 = (ts * 2 ^ 4 + 7) * 2 ^ 12 := by ring
  rw [h2]
  have h3 : (0 : Int) ≤ ts * 2 ^ 4 + 7 := by
    have : (0 : Int) ≤ ts * 2 ^ 4 := mul_nonneg hts (by norm_num)
    omega
  rw [int_lor_shift_add 12 h3 hsq0 (show sq < 2 ^ 12 by norm_num; omega)]
  have hmask : UUIDv7.RAND_B_MASK = 2 ^ 62 - 1 := by decide
  have hband := int_land_pow2m1_bounds random 62
  rw [← hmask] at hband
  have h4 : Int.lor UUIDv7.VAR (Int.land random UUIDv7.RAND_B_MASK) =
      9223372036854775808 + Int.land random UUIDv7.RAND_B_MASK := by
    rw [uuid7_VAR_eq, show (9223372036854775808 : Int) = 2 * 2 ^ 62 by norm_num]
    apply int_lor_shift_add 62 (by norm_num) hband.1
    have := hband.2
    have hm2 : (2 : Int) ^ 62 - 1 = 4611686018427387903 := by norm_num
    rw [hmask] at this
    omega
  rw [h4, Prod.mk.injEq]
  exact ⟨by ring, rfl⟩

theorem uuid7w_VER_eq : UUIDv7Worker.VER = 28672 := by decide

theorem uuid7w_VAR_eq : UUIDv7Worker.VAR = 9223372036854775808 := by decide

theorem uuid7w_packBits_eq {ts w sq ra rb : Int} (hts : 0 ≤ ts)
    (hw0 : 0 ≤ w) (hw : w ≤ 1023) (hsq0 : 0 ≤ sq) (hsq : sq ≤ 4095)
    (hra0 : 0 ≤ ra) (hra : ra ≤ 4095) (hrb0 : 0 ≤ rb) (hrb : rb < 2 ^ 40) :
    UUIDv7Worker.packBits ts w sq ra rb =
      (ts * 65536 + 28672 + ra,
       9223372036854775808 + w * 4503599627370496 + sq * 1099511627776 + rb) := by
  unfold UUIDv7Worker.packBits
  rw [show ((UUIDv7Worker.TIMESTAMP_SHIFT : Nat) : Int) = ((16 : Nat) : Int) from rfl,
      show ((UUIDv7Worker.WORKER_ID_SHIFT : Nat) : Int) = ((52 : Nat) : Int) from rfl,
      show ((UUIDv7Worker.SEQ_SHIFT : Nat) : Int) = ((40 : Nat) : Int) from rfl,
      int_shiftLeft_eq, int_shiftLeft_eq, int_shiftLeft_eq, uuid7w_VER_eq, uuid7w_VAR_eq]
  have h1 : Int.lor (ts * 2 ^ 16) 28672 = ts * 2 ^ 16 + 28672 := by
    apply int_lor_shift_add 16 hts (by norm_num)
    norm_num
  rw [h1]
  have h2 : ts * 2 ^ 16 + 28672 = (ts * 2 ^ 4 + 7) * 2 ^ 12 := by ring
  have h3 : (0 : Int) ≤ ts * 2 ^ 4 + 7 := by
    have : (0 : Int) ≤ ts * 2 ^ 4 := mul_nonneg hts (by norm_num)
    omega
  rw [h2, int_lor_shift_add 12 h3 hra0 (show ra < 2 ^ 12 by norm_num; omega)]
  have h4 : Int.lor 9223372036854775808 (w * 2 ^ 52) = 9223372036854775808 + w * 2 ^ 52 := by
    rw [show (9223372036854775808 : Int) = 2 * 2 ^ 62 by norm_num]
    apply int_lor_shift_add 62 (by norm_num) (mul_nonneg hw0 (by norm_num))
    have hle : w * 2 ^ 52 ≤ 1023 * 2 ^ 52 := mul_le_mul_of_nonneg_right hw (by norm_num)
    have : (1023 : Int) * 2 ^ 52 < 2 ^ 62 := by norm_num
    omega
  rw [h4]
  have h5 : Int.lor (9223372036854775808 + w * 2 ^ 52) (sq * 2 ^ 40) =
      9223372036854775808 + w * 2 ^ 52 + sq * 2 ^ 40 := by
    have e : (9223372036854775808 : Int) + w * 2 ^ 52 = (2 ^ 11 + w) * 2 ^ 52 := by ring
    rw [e]
    have hx : (0 : Int) ≤ 2 ^ 11 + w := by omega
    have hy : sq * 2 ^ 40 < 2 ^ 52 := by
      have hle : sq * 2 ^ 40 ≤ 4095 * 2 ^ 40 := mul_le_mul_of_nonneg_right hsq (by norm_num)
      have : (4095 : Int) * 2 ^ 40 < 2 ^ 52 := by norm_num
      omega
    rw [int_lor_shift_add 52 hx (mul_nonneg hsq0 (by norm_num)) hy]
  rw [h5]
  have h6 : Int.lor (9223372036854775808 + w * 2 ^ 52 + sq * 2 ^ 40) rb =
      9223372036854775808 + w * 2 ^ 52 + sq * 2 ^ 40 + rb := by
    have e : (9223372036854775808 : Int) + w * 2 ^ 52 + sq * 2 ^ 40 = (2 ^ 23 + w * 2 ^ 12 + sq) * 2 ^ 40 := by ring
    rw [e]
    have hx : (0 : Int) ≤ 2 ^ 23 + w * 2 ^ 12 + sq := by
      have : (0 : Int) ≤ w * 2 ^ 12 := mul_nonneg hw0 (by norm_num)
      omega
    rw [int_lor_shift_add 40 hx hrb0 hrb]
  rw [h6, Prod.mk.injEq]
  exact ⟨by ring, by ring⟩

/-! ### Generate-level regression propagation -/

theorem snowflake_generate_clock_regression {st : Snowflake.State} {clock : Nat → Int} {fuel : Nat}
    (h : clock 0 < st.lastTimestamp) :
    Snowflake.generate st clock fuel = .clockRegression st := by
  unfold Snowflake.generate Snowflake.generateBinary
  rw [snowflake_step_clock_regression h]

theorem uuid7_generate_clock_regression {st : UUIDv7.State} {clock : Nat → Int} {random : Int} {fuel : Nat}
    (h : clock 0 < st.lastTimestamp) :
    UUIDv7.generate st clock random fuel = .clockRegression st := by
  unfold UUIDv7.generate UUIDv7.generateBinary
  rw [uuid7_step_clock_regression h]

theorem uuid7w_generate_clock_regression {st : UUIDv7Worker.State} {clock : Nat → Int} {random : Int} {fuel : Nat}
    (h : clock 0 < st.lastTimestamp) :
    UUIDv7Worker.generate st clock random fuel = .clockRegression st := by
  unfold UUIDv7Worker.generate UUIDv7Worker.generateBinary
  rw [uuid7w_step_clock_regression h]

/-- A run of successive `generate()` calls on one Snowflake instance:
each call supplies the clock trace it observes (and busy-wait fuel);
the instance state threads through, exceptions included, exactly as a
long-lived JS object would behave. -/
def Snowflake.runGenerate : Snowflake.State → List ((Nat → Int) × Nat) → List (GenOutcome Snowflake.State (List Char))
  | _, [] => []
  | st, (clock, fuel) :: rest =>
    match Snowflake.generate st clock fuel with
    | .ok st1 v => .ok st1 v :: Snowflake.runGenerate st1 rest
    | .clockRegression st1 => .clockRegression st1 :: Snowflake.runGenerate st1 rest
    | .outOfFuel => [.outOfFuel]

/-- C3: for each of the three generator classes, a call that observes a
clock reading strictly below the recorded `lastTimestamp` fails with
the clock-regression error, both at the sequencer and at `generate`
level, and the state it reports back is exactly the state before the
call (nothing was mutated before the throw). -/
theorem claim_C3 :
    (∀ (st : Snowflake.State) (clock : Nat → Int) (fuel : Nat), clock 0 < st.lastTimestamp →
      Snowflake.getTimestampAndSequence st clock fuel = .clockRegression st ∧
      Snowflake.generate st clock fuel = .clockRegression st) ∧
    (∀ (st : UUIDv7.State) (clock : Nat → Int) (random : Int) (fuel : Nat), clock 0 < st.lastTimestamp →
      UUIDv7.getTimestampAndSequence st clock fuel = .clockRegression st ∧
      UUIDv7.generate st clock random fuel = .clockRegression st) ∧
    (∀ (st : UUIDv7Worker.State) (clock : Nat → Int) (random : Int) (fuel : Nat), clock 0 < st.lastTimestamp →
      UUIDv7Worker.getTimestampAndSequence st clock fuel = .clockRegression st ∧
      UUIDv7Worker.generate st clock random fuel = .clockRegression st) := by
  refine ⟨fun st clock fuel h => ⟨?_, ?_⟩, fun st clock random fuel h => ⟨?_, ?_⟩,
    fun st clock random fuel h => ⟨?_, ?_⟩⟩
  · exact snowflake_step_clock_regression h
  · exact snowflake_generate_clock_regression h
  · exact uuid7_step_clock_regression h
  · exact uuid7_generate_clock_regression h
  · exact uuid7w_step_clock_regression h
  · exact uuid7w_generate_clock_regression h

/-- Witness for C3: concrete regressing clocks on all three classes. -/
theorem claim_C3_witness :
    Snowflake.getTimestampAndSequence ⟨1, 100, 7⟩ (fun _ => 99) 1 = .clockRegression ⟨1, 100, 7⟩ ∧
    UUIDv7.generate ⟨0, 100, 7⟩ (fun _ => 99) 5 1 = .clockRegression ⟨0, 100, 7⟩ ∧
    UUIDv7Worker.generate ⟨3, 100, 7⟩ (fun _ => 99) 5 1 = .clockRegression ⟨3, 100, 7⟩ :=
  ⟨(claim_C3.1 ⟨1, 100, 7⟩ (fun _ => 99) 1 (by decide)).1,
   (claim_C3.2.1 ⟨0, 100, 7⟩ (fun _ => 99) 5 1 (by decide)).2,
   (claim_C3.2.2 ⟨3, 100, 7⟩ (fun _ => 99) 5 1 (by decide)).2⟩

/-- C5 counterexample: the Snowflake constructor accepts the
out-of-range sequence argument 4096 (the claim says every sequence
outside `[0, 4095]` is rejected with a configuration error). -/
theorem claim_C5_counterexample :
    Snowflake.construct 0 4096 = some ⟨0, -1, 4096⟩ := by decide

/-- C5 amended: the Snowflake constructor succeeds exactly when the
worker id is in `[0, 1023]` (its sequence argument is stored
unchecked), the one-argument UUIDv7 constructor succeeds exactly when
its sequence offset is in `[0, 4095]`, and the two-argument UUIDv7
constructor succeeds exactly when the worker id is in `[0, 1023]` and
the sequence is in `[0, 4095]`; a successful construction stores the
arguments with `lastTimestamp = -1`. -/
theorem claim_C5 :
    (∀ w s : Int, (Snowflake.construct w s ≠ none ↔ 0 ≤ w ∧ w ≤ 1023) ∧
      Snowflake.construct w s = (if 0 ≤ w ∧ w ≤ 1023 then some ⟨w, -1, s⟩ else none)) ∧
    (∀ s : Int, (UUIDv7.construct s ≠ none ↔ 0 ≤ s ∧ s ≤ 4095) ∧
      UUIDv7.construct s = (if 0 ≤ s ∧ s ≤ 4095 then some ⟨s, -1, s⟩ else none)) ∧
    (∀ w s : Int, (UUIDv7Worker.construct w s ≠ none ↔ 0 ≤ w ∧ w ≤ 1023 ∧ 0 ≤ s ∧ s ≤ 4095) ∧
      UUIDv7Worker.construct w s =
        (if 0 ≤ w ∧ w ≤ 1023 ∧ 0 ≤ s ∧ s ≤ 4095 then some ⟨w, -1, s⟩ else none)) := by
  refine ⟨fun w s => ?_, fun s => ?_, fun w s => ?_⟩
  · unfold Snowflake.construct Snowflake.MAX_WORKER_ID
    constructor
    · split
      · rename_i h
        constructor
        · intro hneq
          exact absurd rfl hneq
        · intro hr
          exact ((by omega : False)).elim
      · rename_i h
        constructor
        · intro _
          omega
        · intro _
          exact Option.some_ne_none _
    · split
      · rename_i h
        rw [if_neg (by omega)]
      · rename_i h
        rw [if_pos (by omega)]
  · unfold UUIDv7.construct
    constructor
    · split
      · rename_i h
        constructor
        · intro hneq
          exact absurd rfl hneq
        · intro hr
          exact ((by omega : False)).elim
      · rename_i h
        constructor
        · intro _
          omega
        · intro _
          exact Option.some_ne_none _
    · split
      · rename_i h
        rw [if_neg (by omega)]
      · rename_i h
        rw [if_pos (by omega)]
  · unfold UUIDv7Worker.construct UUIDv7Worker.MAX_WORKER_ID
    constructor
    · split
      · rename_i h
        constructor
        · intro hneq
          exact absurd rfl hneq
        · intro hr
          exact ((by omega : False)).elim
      · split
        · rename_i h h2
          constructor
          · intro hneq
            exact absurd rfl hneq
          · intro hr
            exact ((by omega : False)).elim
        · rename_i h h2
          constructor
          · intro _
            omega
          · intro _
            exact Option.some_ne_none _
    · split
      · rename_i h
        rw [if_neg (by omega)]
      · split
        · rename_i h h2
          rw [if_neg (by omega)]
        · rename_i h h2
          rw [if_pos (by omega)]

/-- Witness for C5 at concrete arguments. -/
theorem claim_C5_witness :
    (Snowflake.construct 5 0 ≠ none) ∧ (UUIDv7.construct 4096 = none) ∧
    (UUIDv7Worker.construct 1024 0 = none) := by
  refine ⟨((claim_C5.1 5 0).1).mpr (by decide), ?_, ?_⟩
  · have h := (claim_C5.2.1 4096).2
    rw [h]
    decide
  · have h := (claim_C5.2.2 1024 0).2
    rw [h]
    decide

/-- C4 counterexample: at the first out-of-range timestamp
(`EPOCH + 2^41`), `generateBinary` raises no error at all: it returns
an identifier, and that identifier (`2^63`) has already overflowed the
63-bit layout; no `FieldOverflowError` exists anywhere in the code. -/
theorem claim_C4_counterexample :
    Snowflake.generateBinary ⟨0, -1, 0⟩ (fun _ => Snowflake.EPOCH + 2 ^ 41) 1 =
      .ok ⟨0, Snowflake.EPOCH + 2 ^ 41, 0⟩ (2 ^ 63) := by decide

/-- C4 amended: Snowflake packing performs no timestamp range check;
for every timestamp at least `2^41` milliseconds past the epoch (with
in-range worker id and sequence) the packed value is produced without
error and is at least `2^63`, overflowing the `0`-sign-bit 63-bit
layout (arbitrary-precision integers mean the value is neither
truncated nor rejected). -/
theorem claim_C4 (t w s : Int) (ht : Snowflake.EPOCH + 2 ^ 41 ≤ t)
    (hw0 : 0 ≤ w) (hw : w ≤ 1023) (hs0 : 0 ≤ s) (hs : s ≤ 4095) :
    2 ^ 63 ≤ Snowflake.packBits t w s := by
  rw [snowflake_packBits_eq (by omega) hw0 hw hs0 hs]
  have h1 : (2 : Int) ^ 41 ≤ t - Snowflake.EPOCH := by omega
  have h2 : (2 : Int) ^ 41 * 4194304 ≤ (t - Snowflake.EPOCH) * 4194304 :=
    mul_le_mul_of_nonneg_right h1 (by norm_num)
  have h3 : (0 : Int) ≤ w * 4096 := mul_nonneg hw0 (by norm_num)
  have h4 : (2 : Int) ^ 41 * 4194304 = 2 ^ 63 := by norm_num
  omega

/-- Witness for C4 at a concrete out-of-range timestamp. -/
theorem claim_C4_witness : 2 ^ 63 ≤ Snowflake.packBits (Snowflake.EPOCH + 2 ^ 41) 3 7 :=
  claim_C4 (Snowflake.EPOCH + 2 ^ 41) 3 7 (by omega) (by norm_num) (by norm_num) (by norm_num) (by norm_num)

/-- C10: the Snowflake constructor's `sequence` argument never
influences generation.  Two instances with the same worker id but any
two sequence arguments, fed the same clock traces (the first reading
being nonnegative, as `Date.now()` always is), produce identical
outcome lists for any number of `generate()` calls: the fresh
`lastTimestamp = -1` forces the first call into the new-millisecond
branch, which overwrites the configured sequence with `0`. -/
theorem claim_C10 (w s1 s2 : Int) (clock : Nat → Int) (fuel : Nat) (rest : List ((Nat → Int) × Nat))
    (h0 : 0 ≤ clock 0) :
    Snowflake.runGenerate ⟨w, -1, s1⟩ ((clock, fuel) :: rest) =
      Snowflake.runGenerate ⟨w, -1, s2⟩ ((clock, fuel) :: rest) := by
  have hstep : ∀ s : Int, Snowflake.getTimestampAndSequence ⟨w, -1, s⟩ clock fuel =
      .ok ⟨w, clock 0, 0⟩ (clock 0) 0 := by
    intro s
    simp only [Snowflake.getTimestampAndSequence]
    rw [if_neg (by omega), if_neg (by omega)]
  have hgen : ∀ s : Int, Snowflake.generate ⟨w, -1, s⟩ clock fuel =
      .ok ⟨w, clock 0, 0⟩ (jsBigIntToString 10 (Snowflake.packBits (clock 0) w 0)) := by
    intro s
    unfold Snowflake.generate Snowflake.generateBinary
    rw [hstep s]
  show Snowflake.runGenerate _ _ = Snowflake.runGenerate _ _
  unfold Snowflake.runGenerate
  rw [hgen s1, hgen s2]

/-- Witness for C10: one call on two instances configured with
sequences 0 and 5. -/
theorem claim_C10_witness :
    Snowflake.runGenerate ⟨1, -1, 0⟩ [(fun _ => 100, 1)] =
      Snowflake.runGenerate ⟨1, -1, 5⟩ [(fun _ => 100, 1)] :=
  claim_C10 1 0 5 (fun _ => 100) 1 [] (by decide)

/-- A run of successive sequencer calls on one two-argument UUIDv7
instance, threading the state exactly as the JS object would. -/
def UUIDv7Worker.runSeq : UUIDv7Worker.State → List ((Nat → Int) × Nat) → List (Outcome UUIDv7Worker.State)
  | _, [] => []
  | st, (clock, fuel) :: rest =>
    match UUIDv7Worker.getTimestampAndSequence st clock fuel with
    | .ok st1 t s => .ok st1 t s :: UUIDv7Worker.runSeq st1 rest
    | .clockRegression st1 => .clockRegression st1 :: UUIDv7Worker.runSeq st1 rest
    | .outOfFuel => [.outOfFuel]

set_option maxRecDepth 100000

/-- C6 counterexample: the two-argument UUIDv7 variant does NOT reset
to the caller-supplied sequence after an overflow.  An instance built
with `sequence = 5` and called 4097 times at a frozen clock (the last
call seeing the clock advance to 1 inside the busy wait) wraps on the
final call and comes back with sequence `0`, not `5`. -/
theorem claim_C6_counterexample :
    UUIDv7Worker.construct 0 5 = some ⟨0, -1, 5⟩ ∧
    (UUIDv7Worker.runSeq ⟨0, -1, 5⟩
        (List.replicate 4096 ((fun _ => 0), 1) ++ [((fun i => if i = 0 then 0 else 1), 2)])).getLast? =
      some (.ok ⟨0, 1, 0⟩ 1 0) ∧ (0 : Int) ≠ 5 := by
  refine ⟨by decide, by decide, by decide⟩

/-- C6 amended: in every generator class, a successful sequencer call
sets `lastTimestamp` to the timestamp it returns; when the call sees
`now = lastTimestamp` and the sequence increment wraps to zero, the
returned timestamp is a busy-wait clock reading at least
`lastTimestamp + 1`, and the sequence restarts at `0` for Snowflake,
at the stored `sequenceOffset` for the one-argument UUIDv7 variant,
and at `0` (not the constructor argument) for the two-argument UUIDv7
variant. -/
theorem claim_C6 :
    (∀ (st st1 : Snowflake.State) (clock : Nat → Int) (fuel : Nat) (t s : Int),
      Snowflake.getTimestampAndSequence st clock fuel = .ok st1 t s →
      st1.lastTimestamp = t ∧
      (clock 0 = st.lastTimestamp → Int.land (st.sequence + 1) 4095 = 0 →
        st.lastTimestamp + 1 ≤ t ∧ s = 0 ∧ (∃ i, t = clock (i + 1)))) ∧
    (∀ (st st1 : UUIDv7.State) (clock : Nat → Int) (fuel : Nat) (t s : Int),
      UUIDv7.getTimestampAndSequence st clock fuel = .ok st1 t s →
      st1.lastTimestamp = t ∧
      (clock 0 = st.lastTimestamp → Int.land (st.sequence + 1) 4095 = 0 →
        st.lastTimestamp + 1 ≤ t ∧ s = st.sequenceOffset ∧ (∃ i, t = clock (i + 1)))) ∧
    (∀ (st st1 : UUIDv7Worker.State) (clock : Nat → Int) (fuel : Nat) (t s : Int),
      UUIDv7Worker.getTimestampAndSequence st clock fuel = .ok st1 t s →
      st1.lastTimestamp = t ∧
      (clock 0 = st.lastTimestamp → Int.land (st.sequence + 1) 4095 = 0 →
        st.lastTimestamp + 1 ≤ t ∧ s = 0 ∧ (∃ i, t = clock (i + 1)))) := by
  refine ⟨fun st st1 clock fuel t s h => ?_, fun st st1 clock fuel t s h => ?_,
    fun st st1 clock fuel t s h => ?_⟩
  · obtain ⟨hst, hbr⟩ := snowflake_step_ok_inv h
    subst hst
    refine ⟨rfl, fun hclock hwrap => ?_⟩
    rcases hbr with ⟨hlt, _, _⟩ | ⟨_, hs, hne, _⟩ | ⟨_, hs, _, hw⟩
    · omega
    · exact absurd (hs.trans hwrap) hne
    · obtain ⟨hgt, i, hi⟩ := wait_some fuel _ t hw
      exact ⟨by omega, hs, ⟨i, hi⟩⟩
  · obtain ⟨hst, hbr⟩ := uuid7_step_ok_inv h
    subst hst
    refine ⟨rfl, fun hclock hwrap => ?_⟩
    rcases hbr with ⟨hlt, _, _⟩ | ⟨_, hs, hne, _⟩ | ⟨_, hs, _, hw⟩
    · omega
    · exact absurd (hs.trans hwrap) hne
    · obtain ⟨hgt, i, hi⟩ := wait_some fuel _ t hw
      exact ⟨by omega, hs, ⟨i, hi⟩⟩
  · obtain ⟨hst, hbr⟩ := uuid7w_step_ok_inv h
    subst hst
    refine ⟨rfl, fun hclock hwrap => ?_⟩
    rcases hbr with ⟨hlt, _, _⟩ | ⟨_, hs, hne, _⟩ | ⟨_, hs, _, hw⟩
    · omega
    · exact absurd (hs.trans hwrap) hne
    · obtain ⟨hgt, i, hi⟩ := wait_some fuel _ t hw
      exact ⟨by omega, hs, ⟨i, hi⟩⟩

/-- Witness for C6: a concrete overflowing call on each class. -/
theorem claim_C6_witness :
    (⟨1, 101, 0⟩ : Snowflake.State).lastTimestamp = 101 ∧ (101 : Int) ≥ 100 + 1 ∧
    (⟨7, 101, 7⟩ : UUIDv7.State).lastTimestamp = 101 := by
  have h1 := (claim_C6.1 ⟨1, 100, 4095⟩ ⟨1, 101, 0⟩ (fun i => if i = 0 then 100 else 101) 2 101 0
    (by decide)).2 (by decide) (by decide)
  have h2 := (claim_C6.2.1 ⟨7, 100, 4095⟩ ⟨7, 101, 7⟩ (fun i => if i = 0 then 100 else 101) 2 101 7
    (by decide)).1
  exact ⟨rfl, h1.1, h2⟩

/-! ### The UUID string grammar -/

theorem hexRun_eq_some : ∀ (n : Nat) (l r : List Char), (hexRun n l = some r ↔
    ∃ p, l = p ++ r ∧ p.length = n ∧ ∀ c ∈ p, isRadixDigit 16 c = true) := by
  intro n
  induction n with
  | zero =>
    intro l r
    constructor
    · intro h
      injection h with h
      exact ⟨[], by simp [h], rfl, by simp⟩
    · rintro ⟨p, hp, hlen, _⟩
      have hpnil : p = [] := List.length_eq_zero.mp hlen
      subst hpnil
      simp at hp
      subst hp
      rfl
  | succ n ih =>
    intro l r
    cases l with
    | nil =>
      constructor
      · intro h
        cases h
      · rintro ⟨p, hp, hlen, _⟩
        have := congrArg List.length hp
        simp only [List.length_nil, List.length_append, hlen] at this
        omega
    | cons c l' =>
      show (if isRadixDigit 16 c then hexRun n l' else none) = some r ↔ _
      by_cases hc : isRadixDigit 16 c = true
      · rw [if_pos hc, ih l' r]
        constructor
        · rintro ⟨p, hp, hlen, hdig⟩
          refine ⟨c :: p, by rw [hp]; rfl, by simp [hlen], ?_⟩
          intro x hx
          rcases List.mem_cons.mp hx with hx | hx
          · subst hx
            exact hc
          · exact hdig x hx
        · rintro ⟨p, hp, hlen, hdig⟩
          cases p with
          | nil => simp at hlen
          | cons c0 p' =>
            rw [List.cons_append] at hp
            injection hp with h1 h2
            refine ⟨p', h2, by simpa using hlen, fun x hx => hdig x (List.mem_cons_of_mem _ hx)⟩
      · rw [if_neg hc]
        constructor
        · intro h
          cases h
        · rintro ⟨p, hp, hlen, hdig⟩
          cases p with
          | nil => simp at hlen
          | cons c0 p' =>
            rw [List.cons_append] at hp
            injection hp with h1 h2
            subst h1
            exact absurd (hdig c (by simp)) hc

theorem expectDash_eq_some {l r : List Char} : expectDash l = some r ↔ l = '-' :: r := by
  cases l with
  | nil => simp [expectDash]
  | cons c l' =>
    by_cases hc : c = '-'
    · subst hc
      simp [expectDash]
    · have hnone : expectDash (c :: l') = none := by
        unfold expectDash
        split
        · rename_i heq
          cases heq
          exact absurd rfl hc
        · rfl
      rw [hnone]
      simp only [List.cons.injEq]
      constructor
      · intro h
        cases h
      · rintro ⟨h1, _⟩
        exact absurd h1 hc

/-- The grammar from the claim: exactly five dash-separated groups of
case-insensitive hex digits with lengths 8, 4, 4, 4 and 12. -/
def UUIDGroups (s : String) : Prop :=
  ∃ g1 g2 g3 g4 g5 : List Char,
    s.data = g1 ++ '-' :: (g2 ++ '-' :: (g3 ++ '-' :: (g4 ++ '-' :: g5))) ∧
    g1.length = 8 ∧ g2.length = 4 ∧ g3.length = 4 ∧ g4.length = 4 ∧ g5.length = 12 ∧
    (∀ c ∈ g1, isRadixDigit 16 c = true) ∧ (∀ c ∈ g2, isRadixDigit 16 c = true) ∧
    (∀ c ∈ g3, isRadixDigit 16 c = true) ∧ (∀ c ∈ g4, isRadixDigit 16 c = true) ∧
    (∀ c ∈ g5, isRadixDigit 16 c = true)

theorem uuidRegexAccepts_iff {s : String} : uuidRegexAccepts s = true ↔ UUIDGroups s := by
  unfold uuidRegexAccepts
  rw [decide_eq_true_eq]
  show (Option.bind (hexRun 8 s.data) fun l => Option.bind (expectDash l) fun l =>
    Option.bind (hexRun 4 l) fun l => Option.bind (expectDash l) fun l =>
    Option.bind (hexRun 4 l) fun l => Option.bind (expectDash l) fun l =>
    Option.bind (hexRun 4 l) fun l => Option.bind (expectDash l) fun l =>
    Option.bind (hexRun 12 l) fun l => some l) = some [] ↔ _
  constructor
  · intro h
    obtain ⟨l1, hl1, h⟩ := Option.bind_eq_some.mp h
    obtain ⟨l2, hl2, h⟩ := Option.bind_eq_some.mp h
    obtain ⟨l3, hl3, h⟩ := Option.bind_eq_some.mp h
    obtain ⟨l4, hl4, h⟩ := Option.bind_eq_some.mp h
    obtain ⟨l5, hl5, h⟩ := Option.bind_eq_some.mp h
    obtain ⟨l6, hl6, h⟩ := Option.bind_eq_some.mp h
    obtain ⟨l7, hl7, h⟩ := Option.bind_eq_some.mp h
    obtain ⟨l8, hl8, h⟩ := Option.bind_eq_some.mp h
    obtain ⟨l9, hl9, h⟩ := Option.bind_eq_some.mp h
    injection h with h
    subst h
    obtain ⟨g1, he1, hn1, hd1⟩ := (hexRun_eq_some 8 _ _).mp hl1
    rw [expectDash_eq_some] at hl2
    obtain ⟨g2, he2, hn2, hd2⟩ := (hexRun_eq_some 4 _ _).mp hl3
    rw [expectDash_eq_some] at hl4
    obtain ⟨g3, he3, hn3, hd3⟩ := (hexRun_eq_some 4 _ _).mp hl5
    rw [expectDash_eq_some] at hl6
    obtain ⟨g4, he4, hn4, hd4⟩ := (hexRun_eq_some 4 _ _).mp hl7
    rw [expectDash_eq_some] at hl8
    obtain ⟨g5, he5, hn5, hd5⟩ := (hexRun_eq_some 12 _ _).mp hl9
    refine ⟨g1, g2, g3, g4, g5, ?_, hn1, hn2, hn3, hn4, hn5, hd1, hd2, hd3, hd4, hd5⟩
    rw [he1, hl2, he2, hl4, he3, hl6, he4, hl8, he5]
    simp
  · rintro ⟨g1, g2, g3, g4, g5, hs, hn1, hn2, hn3, hn4, hn5, hd1, hd2, hd3, hd4, hd5⟩
    apply Option.bind_eq_some.mpr
    refine ⟨'-' :: (g2 ++ '-' :: (g3 ++ '-' :: (g4 ++ '-' :: g5))),
      (hexRun_eq_some 8 _ _).mpr ⟨g1, hs, hn1, hd1⟩, ?_⟩
    apply Option.bind_eq_some.mpr
    refine ⟨g2 ++ '-' :: (g3 ++ '-' :: (g4 ++ '-' :: g5)), expectDash_eq_some.mpr rfl, ?_⟩
    apply Option.bind_eq_some.mpr
    refine ⟨'-' :: (g3 ++ '-' :: (g4 ++ '-' :: g5)),
      (hexRun_eq_some 4 _ _).mpr ⟨g2, rfl, hn2, hd2⟩, ?_⟩
    apply Option.bind_eq_some.mpr
    refine ⟨g3 ++ '-' :: (g4 ++ '-' :: g5), expectDash_eq_some.mpr rfl, ?_⟩
    apply Option.bind_eq_some.mpr
    refine ⟨'-' :: (g4 ++ '-' :: g5), (hexRun_eq_some 4 _ _).mpr ⟨g3, rfl, hn3, hd3⟩, ?_⟩
    apply Option.bind_eq_some.mpr
    refine ⟨g4 ++ '-' :: g5, expectDash_eq_some.mpr rfl, ?_⟩
    apply Option.bind_eq_some.mpr
    refine ⟨'-' :: g5, (hexRun_eq_some 4 _ _).mpr ⟨g4, rfl, hn4, hd4⟩, ?_⟩
    apply Option.bind_eq_some.mpr
    refine ⟨g5, expectDash_eq_some.mpr rfl, ?_⟩
    apply Option.bind_eq_some.mpr
    exact ⟨[], (hexRun_eq_some 12 _ _).mpr ⟨g5, by simp, hn5, hd5⟩, rfl⟩

/-- C8: both UUIDv7 classes accept a string exactly when it consists of
five dash-separated groups of case-insensitive hex digits of lengths
8-4-4-4-12 with the dashes in exactly those positions; in particular
the compact 32-hex-digit form without dashes is rejected. -/
theorem claim_C8 :
    (∀ s : String, (UUIDv7.isValid s = true ↔ UUIDGroups s) ∧
      UUIDv7Worker.isValidUUID s = UUIDv7.isValid s) ∧
    UUIDv7.isValid ("0123456789abcdef0123456789abcdef") = false := by
  refine ⟨fun s => ⟨uuidRegexAccepts_iff, rfl⟩, by decide⟩

/-! ### Evaluating the string conversions on well-formed digit strings -/

theorem jsBigIntToString_nonneg {B : Nat} {v : Int} (h : 0 ≤ v) :
    jsBigIntToString B v = natToDigits B v.toNat := by
  unfold jsBigIntToString
  rw [if_neg (by omega)]

theorem dropWhile_all_false {p : Char → Bool} : ∀ {l : List Char}, (∀ c ∈ l, p c = false) →
    l.dropWhile p = l := by
  intro l h
  cases l with
  | nil => rfl
  | cons c l' =>
    rw [List.dropWhile_cons_of_neg]
    simp [h c (by simp)]

theorem trimWsList_eq_self {l : List Char} (h : ∀ c ∈ l, isJsSpace c = false) :
    trimWsList l = l := by
  unfold trimWsList
  rw [dropWhile_all_false h, dropWhile_all_false (by intro c hc; exact h c (by simpa using hc)),
    List.reverse_reverse]

theorem takeWhile_all_true {p : Char → Bool} : ∀ {l : List Char}, (∀ c ∈ l, p c = true) →
    l.takeWhile p = l := by
  intro l
  induction l with
  | nil => intro _; rfl
  | cons c l' ih =>
    intro h
    rw [List.takeWhile_cons_of_pos (h c (by simp))]
    rw [ih (fun x hx => h x (by simp [hx]))]

theorem digit10_range {c : Char} (h : isRadixDigit 10 c = true) : 48 ≤ c.toNat ∧ c.toNat ≤ 57 := by
  unfold isRadixDigit digitVal? at h
  by_cases h1 : 48 ≤ c.toNat ∧ c.toNat ≤ 57
  · exact h1
  · rw [if_neg h1] at h
    by_cases h2 : 97 ≤ c.toNat ∧ c.toNat ≤ 102
    · rw [if_pos h2] at h
      simp only [decide_eq_true_eq] at h
      omega
    · rw [if_neg h2] at h
      by_cases h3 : 65 ≤ c.toNat ∧ c.toNat ≤ 70
      · rw [if_pos h3] at h
        simp only [decide_eq_true_eq] at h
        omega
      · rw [if_neg h3] at h
        simp at h

theorem isRadixDigit_dash (B : Nat) : isRadixDigit B '-' = false := by
  unfold isRadixDigit
  rw [show digitVal? '-' = none from by decide]

theorem isRadixDigit_plus (B : Nat) : isRadixDigit B '+' = false := by
  unfold isRadixDigit
  rw [show digitVal? '+' = none from by decide]

theorem parseAllDigits_all {B : Nat} {l : List Char} (h : l ≠ [])
    (hall : ∀ c ∈ l, isRadixDigit B c = true) : parseAllDigits B l = some (foldDigits B l) := by
  unfold parseAllDigits
  rw [if_neg (by simpa using h), if_pos (by simpa using hall)]

theorem parseIntList_cons (B : Nat) (c : Char) (rest : List Char) :
    parseIntList B (c :: rest) =
      (if c = '-' then (parseDigitsRun B rest).map (fun n => -(n : Int))
       else if c = '+' then (parseDigitsRun B rest).map (fun n => (n : Int))
       else (parseDigitsRun B (c :: rest)).map (fun n => (n : Int))) := rfl

theorem parseIntList_fixedDigits {B k n : Nat} (hB : 2 ≤ B) (hB16 : B ≤ 16) (hk : 1 ≤ k)
    (hn : n < B ^ k) : parseIntList B (fixedDigits B k n) = some ((n : Nat) : Int) := by
  have hall := fun c hc => fixedDigits_all_digits hB hB16 k n c hc
  have hlen : (fixedDigits B k n).length = k := fixedDigits_length B k n
  cases hfd : fixedDigits B k n with
  | nil =>
    rw [hfd] at hlen
    simp at hlen
    omega
  | cons c rest =>
    have hc : isRadixDigit B c = true := by
      apply hall
      rw [hfd]
      simp
    have hcdash : c ≠ '-' := by
      intro he
      rw [he, isRadixDigit_dash] at hc
      cases hc
    have hcplus : c ≠ '+' := by
      intro he
      rw [he, isRadixDigit_plus] at hc
      cases hc
    rw [parseIntList_cons, if_neg hcdash, if_neg hcplus]
    unfold parseDigitsRun
    rw [show (c :: rest).takeWhile (fun c => isRadixDigit B c) = c :: rest from
      takeWhile_all_true (by rw [← hfd]; exact hall)]
    rw [if_neg (by simp)]
    rw [← hfd, foldDigits_fixedDigits hB hB16 k n hn]
    rfl

theorem jsStringToBigInt_no_ws {l : List Char} (h : ∀ c ∈ l, isJsSpace c = false) :
    jsStringToBigInt (String.mk l) = jsStringToBigIntGo l := by
  unfold jsStringToBigInt
  rw [show (String.mk l).data = l from rfl, trimWsList_eq_self h]

theorem jsStringToBigIntGo_cons (c : Char) (rest : List Char) (hdash : c ≠ '-') (hplus : c ≠ '+')
    (hzero : c ≠ '0') :
    jsStringToBigIntGo (c :: rest) = (parseAllDigits 10 (c :: rest)).map (fun n => (n : Int)) := by
  show (if c = '-' then (parseAllDigits 10 rest).map (fun n => -(n : Int))
    else if c = '+' then (parseAllDigits 10 rest).map (fun n => (n : Int))
    else if c = '0' then
      (match rest with
      | [] => some 0
      | d :: rest2 =>
        if d = 'x' ∨ d = 'X' then (parseAllDigits 16 rest2).map (fun n => (n : Int))
        else if d = 'b' ∨ d = 'B' then (parseAllDigits 2 rest2).map (fun n => (n : Int))
        else if d = 'o' ∨ d = 'O' then (parseAllDigits 8 rest2).map (fun n => (n : Int))
        else (parseAllDigits 10 (c :: d :: rest2)).map (fun n => (n : Int)))
    else (parseAllDigits 10 (c :: rest)).map (fun n => (n : Int))) = _
  rw [if_neg hdash, if_neg hplus, if_neg hzero]

theorem jsStringToBigIntGo_zero_nil : jsStringToBigIntGo (['0'] : List Char) = some 0 := rfl

theorem jsStringToBigIntGo_zero_cons (d : Char) (rest2 : List Char) :
    jsStringToBigIntGo ('0' :: d :: rest2) =
      (if d = 'x' ∨ d = 'X' then (parseAllDigits 16 rest2).map (fun n => (n : Int))
       else if d = 'b' ∨ d = 'B' then (parseAllDigits 2 rest2).map (fun n => (n : Int))
       else if d = 'o' ∨ d = 'O' then (parseAllDigits 8 rest2).map (fun n => (n : Int))
       else (parseAllDigits 10 ('0' :: d :: rest2)).map (fun n => (n : Int))) := rfl

theorem jsStringToBigInt_decimal (n : Nat) :
    jsStringToBigInt (String.mk (natToDigits 10 n)) = some ((n : Nat) : Int) := by
  have hall := natToDigits_all_digits (B := 10) (by norm_num) (by norm_num) n
  have hnnil := natToDigits_ne_nil (B := 10) (n := n) (by norm_num)
  have hrange : ∀ c ∈ natToDigits 10 n, 48 ≤ c.toNat ∧ c.toNat ≤ 57 :=
    fun c hc => digit10_range (hall c hc)
  rw [jsStringToBigInt_no_ws (fun c hc => isJsSpace_of_digit (hall c hc))]
  cases hfd : natToDigits 10 n with
  | nil => exact absurd hfd hnnil
  | cons c rest =>
    have hcr : 48 ≤ c.toNat ∧ c.toNat ≤ 57 := by
      apply hrange
      rw [hfd]
      simp
    have hcdash : c ≠ '-' := by
      intro he
      rw [he] at hcr
      revert hcr
      decide
    have hcplus : c ≠ '+' := by
      intro he
      rw [he] at hcr
      revert hcr
      decide
    by_cases hc0 : c = '0'
    · subst hc0
      cases rest with
      | nil =>
        have hn0 : n = 0 := by
          have hfold := foldDigits_natToDigits (B := 10) (by norm_num) (by norm_num) n
          rw [hfd] at hfold
          rw [← hfold]
          decide
        rw [jsStringToBigIntGo_zero_nil, hn0]
        rfl
      | cons d rest2 =>
        have hdr : 48 ≤ d.toNat ∧ d.toNat ≤ 57 := by
          apply hrange
          rw [hfd]
          simp
        rw [jsStringToBigIntGo_zero_cons]
        have hx : ¬(d = 'x' ∨ d = 'X') := by
          rintro (he | he) <;> rw [he] at hdr <;> revert hdr <;> decide
        have hb : ¬(d = 'b' ∨ d = 'B') := by
          rintro (he | he) <;> rw [he] at hdr <;> revert hdr <;> decide
        have ho : ¬(d = 'o' ∨ d = 'O') := by
          rintro (he | he) <;> rw [he] at hdr <;> revert hdr <;> decide
        rw [if_neg hx, if_neg hb, if_neg ho]
        rw [parseAllDigits_all (by simp) (by rw [← hfd]; exact hall)]
        rw [← hfd, foldDigits_natToDigits (by norm_num) (by norm_num)]
        rfl
    · rw [jsStringToBigIntGo_cons c rest hcdash hcplus hc0]
      rw [parseAllDigits_all (by simp) (by rw [← hfd]; exact hall)]
      rw [← hfd, foldDigits_natToDigits (by norm_num) (by norm_num)]
      rfl

theorem jsStringToBigInt_hex {l : List Char} (h : l ≠ [])
    (hall : ∀ c ∈ l, isRadixDigit 16 c = true) :
    jsStringToBigInt (String.mk ('0' :: 'x' :: l)) = some ((foldDigits 16 l : Nat) : Int) := by
  rw [jsStringToBigInt_no_ws ?hws]
  case hws =>
    intro c hc
    rcases List.mem_cons.mp hc with rfl | hc
    · decide
    · rcases List.mem_cons.mp hc with rfl | hc
      · decide
      · exact isJsSpace_of_digit (hall c hc)
  rw [jsStringToBigIntGo_zero_cons, if_pos (Or.inl rfl)]
  rw [parseAllDigits_all h hall]
  rfl

/-! ### Snowflake round trip -/

theorem Snowflake.toBinaryString_of_value {v : Int} (h0 : 0 ≤ v) (h : v < 2 ^ 63) :
    Snowflake.toBinaryString (String.mk (jsBigIntToString 10 v)) = some (fixedDigits 2 64 v.toNat) := by
  have hN : v.toNat < 9223372036854775808 := by
    have h' : v < 9223372036854775808 := by norm_num at h; exact h
    omega
  unfold Snowflake.toBinaryString
  rw [jsBigIntToString_nonneg h0, jsStringToBigInt_decimal]
  simp only [Option.map_some']
  rw [jsBigIntToString_nonneg (by positivity), Int.toNat_natCast]
  have hlen : (natToDigits 2 v.toNat).length ≤ 63 := by
    apply natToDigits_length_le (by norm_num) 63 _ ?_ (by norm_num)
    norm_num
    omega
  rw [if_pos (by omega)]
  apply congrArg some
  apply padStart_natToDigits (by norm_num) 64 _ ?_ (by norm_num)
  norm_num
  omega

theorem Snowflake.binary_decomp (N : Nat) (hN : N < 18446744073709551616) :
    fixedDigits 2 64 N =
      ((fixedDigits 2 1 (N / 9223372036854775808) ++ fixedDigits 2 41 (N / 4194304 % 2199023255552)) ++
        fixedDigits 2 10 (N / 4096 % 1024)) ++ fixedDigits 2 12 (N % 4096) := by
  have e1 : fixedDigits 2 64 N = fixedDigits 2 52 (N / 2 ^ 12) ++ fixedDigits 2 12 (N % 2 ^ 12) :=
    fixedDigits_append 2 (by norm_num) 52 12 N
  have e2 : fixedDigits 2 52 (N / 2 ^ 12) =
      fixedDigits 2 42 (N / 2 ^ 12 / 2 ^ 10) ++ fixedDigits 2 10 (N / 2 ^ 12 % 2 ^ 10) :=
    fixedDigits_append 2 (by norm_num) 42 10 (N / 2 ^ 12)
  have e3 : fixedDigits 2 42 (N / 2 ^ 12 / 2 ^ 10) =
      fixedDigits 2 1 (N / 2 ^ 12 / 2 ^ 10 / 2 ^ 41) ++ fixedDigits 2 41 (N / 2 ^ 12 / 2 ^ 10 % 2 ^ 41) :=
    fixedDigits_append 2 (by norm_num) 1 41 (N / 2 ^ 12 / 2 ^ 10)
  rw [e1, e2, e3]
  have d1 : N / 2 ^ 12 / 2 ^ 10 = N / 4194304 := by
    rw [Nat.div_div_eq_div_mul]
    norm_num
  have d2 : N / 2 ^ 12 / 2 ^ 10 / 2 ^ 41 = N / 9223372036854775808 := by
    rw [d1, Nat.div_div_eq_div_mul]
    norm_num
  rw [d2, d1]
  norm_num

theorem Snowflake.parse_of_value {v : Int} (h0 : 0 ≤ v) (h : v < 2 ^ 63) :
    Snowflake.parse (String.mk (jsBigIntToString 10 v)) =
      some ⟨((v.toNat / 4194304 % 2199023255552 : Nat) : Int) + Snowflake.EPOCH,
            ((v.toNat / 4096 % 1024 : Nat) : Int), ((v.toNat % 4096 : Nat) : Int),
            fixedDigits 2 64 v.toNat⟩ := by
  have hN : v.toNat < 18446744073709551616 := by
    have h' : v < 9223372036854775808 := by norm_num at h; exact h
    omega
  have hdec := Snowflake.binary_decomp v.toNat hN
  set A := fixedDigits 2 1 (v.toNat / 9223372036854775808) with hA
  set B := fixedDigits 2 41 (v.toNat / 4194304 % 2199023255552) with hB
  set C := fixedDigits 2 10 (v.toNat / 4096 % 1024) with hC
  set D := fixedDigits 2 12 (v.toNat % 4096) with hD
  have lA : A.length = 1 := fixedDigits_length 2 1 _
  have lB : B.length = 41 := fixedDigits_length 2 41 _
  have lC : C.length = 10 := fixedDigits_length 2 10 _
  have hsub1 : ((fixedDigits 2 64 v.toNat).take 42).drop 1 = B := by
    rw [hdec]
    rw [show ((A ++ B) ++ C) ++ D = (A ++ B) ++ (C ++ D) from by simp [List.append_assoc]]
    rw [List.take_left' (by simp [lA, lB])]
    rw [List.drop_left' lA]
  have hsub2 : ((fixedDigits 2 64 v.toNat).take 52).drop 42 = C := by
    rw [hdec]
    rw [List.take_left' (by simp [lA, lB, lC])]
    rw [List.drop_left' (by simp [lA, lB])]
  have hsub3 : (fixedDigits 2 64 v.toNat).drop 52 = D := by
    rw [hdec]
    rw [List.drop_left' (by simp [lA, lB, lC])]
  unfold Snowflake.parse
  rw [Snowflake.toBinaryString_of_value h0 h]
  simp only [Option.bind_eq_bind, Option.some_bind]
  rw [hsub1, hsub2, hsub3]
  rw [hB, parseIntList_fixedDigits (by norm_num) (by norm_num) (by norm_num)
    (by norm_num; exact Nat.mod_lt _ (by norm_num))]
  simp only [Option.some_bind]
  rw [hC, parseIntList_fixedDigits (by norm_num) (by norm_num) (by norm_num)
    (by norm_num; exact Nat.mod_lt _ (by norm_num))]
  simp only [Option.some_bind]
  rw [hD, parseIntList_fixedDigits (by norm_num) (by norm_num) (by norm_num)
    (by norm_num; exact Nat.mod_lt _ (by norm_num))]
  simp only [Option.some_bind]
  rfl

/-! ### UUID format and parse round trip -/

theorem uuid7_hexPad16_eq {v : Int} (h0 : 0 ≤ v) (h : v < 18446744073709551616) :
    UUIDv7.hexPad16 v = fixedDigits 16 16 v.toNat := by
  unfold UUIDv7.hexPad16
  rw [jsBigIntToString_nonneg h0]
  apply padStart_natToDigits (by norm_num) 16 _ ?_ (by norm_num)
  norm_num
  omega

theorem uuid7w_hexPad16_eq {v : Int} (h0 : 0 ≤ v) (h : v < 18446744073709551616) :
    UUIDv7Worker.hexPad16 v = fixedDigits 16 16 v.toNat :=
  uuid7_hexPad16_eq h0 h

theorem uuid_hex_decompL (N : Nat) :
    fixedDigits 16 16 N =
      (fixedDigits 16 8 (N / 4294967296) ++ fixedDigits 16 4 (N / 65536 % 65536)) ++
        fixedDigits 16 4 (N % 65536) := by
  have e1 : fixedDigits 16 16 N = fixedDigits 16 8 (N / 16 ^ 8) ++ fixedDigits 16 8 (N % 16 ^ 8) :=
    fixedDigits_append 16 (by norm_num) 8 8 N
  have e2 : fixedDigits 16 8 (N % 16 ^ 8) =
      fixedDigits 16 4 (N % 16 ^ 8 / 16 ^ 4) ++ fixedDigits 16 4 (N % 16 ^ 8 % 16 ^ 4) :=
    fixedDigits_append 16 (by norm_num) 4 4 (N % 16 ^ 8)
  have d1 : N % 16 ^ 8 / 16 ^ 4 = N / 65536 % 65536 := by
    rw [show (16 : Nat) ^ 8 = 16 ^ 4 * 16 ^ 4 by norm_num, Nat.mod_mul_right_div_self]
    norm_num
  have d2 : N % 16 ^ 8 % 16 ^ 4 = N % 65536 := by
    rw [Nat.mod_mod_of_dvd N (by norm_num : (16 : Nat) ^ 4 ∣ 16 ^ 8)]
    norm_num
  rw [e1, e2, d1, d2]
  rw [List.append_assoc]
  norm_num

theorem uuid_hex_decompR (N : Nat) :
    fixedDigits 16 16 N =
      fixedDigits 16 4 (N / 281474976710656) ++ fixedDigits 16 12 (N % 281474976710656) := by
  have e1 : fixedDigits 16 16 N = fixedDigits 16 4 (N / 16 ^ 12) ++ fixedDigits 16 12 (N % 16 ^ 12) :=
    fixedDigits_append 16 (by norm_num) 4 12 N
  rw [e1]
  norm_num

theorem uuid7_formatUUID_eq {L R : Int} (hL0 : 0 ≤ L) (hL : L < 18446744073709551616)
    (hR0 : 0 ≤ R) (hR : R < 18446744073709551616) :
    UUIDv7.formatUUID L R =
      fixedDigits 16 8 (L.toNat / 4294967296) ++ '-' ::
        (fixedDigits 16 4 (L.toNat / 65536 % 65536) ++ '-' ::
          (fixedDigits 16 4 (L.toNat % 65536) ++ '-' ::
            (fixedDigits 16 4 (R.toNat / 281474976710656) ++ '-' ::
              fixedDigits 16 12 (R.toNat % 281474976710656)))) := by
  simp only [UUIDv7.formatUUID]
  rw [uuid7_hexPad16_eq hL0 hL, uuid7_hexPad16_eq hR0 hR]
  set g1 := fixedDigits 16 8 (L.toNat / 4294967296) with hg1
  set g2 := fixedDigits 16 4 (L.toNat / 65536 % 65536) with hg2
  set g3 := fixedDigits 16 4 (L.toNat % 65536) with hg3
  set g4 := fixedDigits 16 4 (R.toNat / 281474976710656) with hg4
  set g5 := fixedDigits 16 12 (R.toNat % 281474976710656) with hg5
  have l1 : g1.length = 8 := fixedDigits_length 16 8 _
  have l2 : g2.length = 4 := fixedDigits_length 16 4 _
  have l3 : g3.length = 4 := fixedDigits_length 16 4 _
  have l4 : g4.length = 4 := fixedDigits_length 16 4 _
  have hdecL : fixedDigits 16 16 L.toNat = (g1 ++ g2) ++ g3 := uuid_hex_decompL L.toNat
  have hdecR : fixedDigits 16 16 R.toNat = g4 ++ g5 := uuid_hex_decompR R.toNat
  have htake8 : (fixedDigits 16 16 L.toNat).take 8 = g1 := by
    rw [hdecL, List.append_assoc]
    exact List.take_left' l1
  have htake12 : ((fixedDigits 16 16 L.toNat).take 12).drop 8 = g2 := by
    rw [hdecL, List.take_left' (by simp [l1, l2]), List.drop_left' l1]
  have hdrop12 : (fixedDigits 16 16 L.toNat).drop 12 = g3 := by
    rw [hdecL, List.drop_left' (by simp [l1, l2])]
  have htake4 : (fixedDigits 16 16 R.toNat).take 4 = g4 := by
    rw [hdecR, List.take_left' l4]
  have hdrop4 : (fixedDigits 16 16 R.toNat).drop 4 = g5 := by
    rw [hdecR, List.drop_left' l4]
  rw [htake8, htake12, hdrop12, htake4, hdrop4]
  simp [List.append_assoc]

theorem concat32_slices (l r : List Char) (hl : l.length = 16) :
    ((l ++ r).take 8 = l.take 8) ∧ (((l ++ r).take 12).drop 8 = (l.take 12).drop 8) ∧
    (((l ++ r).take 16).drop 12 = l.drop 12) ∧ (((l ++ r).take 20).drop 16 = r.take 4) ∧
    ((l ++ r).drop 20 = r.drop 4) := by
  refine ⟨List.take_append_of_le_length (by omega), ?_, ?_, ?_, ?_⟩
  · rw [List.take_append_of_le_length (by omega)]
  · rw [List.take_append_of_le_length (by omega), List.take_of_length_le (by omega)]
  · rw [List.take_append_eq_append_take, List.take_of_length_le (by omega),
      List.drop_left' hl]
    congr 1
    omega
  · rw [List.drop_append_eq_append_drop, List.drop_of_length_le (by omega),
      List.nil_append]
    congr 1
    omega

theorem uuid7w_formatUUID_eq {L R : Int} (hL0 : 0 ≤ L) (hL : L < 18446744073709551616)
    (hR0 : 0 ≤ R) (hR : R < 18446744073709551616) :
    UUIDv7Worker.formatUUID L R = UUIDv7.formatUUID L R := by
  simp only [UUIDv7Worker.formatUUID, UUIDv7.formatUUID]
  rw [show UUIDv7Worker.hexPad16 = UUIDv7.hexPad16 from rfl]
  rw [uuid7_hexPad16_eq hL0 hL, uuid7_hexPad16_eq hR0 hR]
  obtain ⟨h1, h2, h3, h4, h5⟩ := concat32_slices (fixedDigits 16 16 L.toNat)
    (fixedDigits 16 16 R.toNat) (fixedDigits_length 16 16 _)
  rw [h1, h2, h3, h4, h5]

theorem fixedDigits_filter_dash {B k n : Nat} (hB : 2 ≤ B) (hB16 : B ≤ 16) :
    (fixedDigits B k n).filter (fun c => c ≠ '-') = fixedDigits B k n := by
  apply List.filter_eq_self.mpr
  intro c hc
  have hd := fixedDigits_all_digits hB hB16 k n c hc
  have hne : c ≠ '-' := by
    intro he
    rw [he, isRadixDigit_dash] at hd
    cases hd
  simp [hne]

theorem UUIDv7.formatUUID_filter {L R : Int} (hL0 : 0 ≤ L) (hL : L < 18446744073709551616)
    (hR0 : 0 ≤ R) (hR : R < 18446744073709551616) :
    (UUIDv7.formatUUID L R).filter (fun c => c ≠ '-') =
      fixedDigits 16 16 L.toNat ++ fixedDigits 16 16 R.toNat := by
  rw [uuid7_formatUUID_eq hL0 hL hR0 hR]
  rw [uuid_hex_decompL L.toNat, uuid_hex_decompR R.toNat]
  simp only [List.filter_append, List.filter_cons]
  rw [fixedDigits_filter_dash (by norm_num) (by norm_num),
      fixedDigits_filter_dash (by norm_num) (by norm_num),
      fixedDigits_filter_dash (by norm_num) (by norm_num),
      fixedDigits_filter_dash (by norm_num) (by norm_num),
      fixedDigits_filter_dash (by norm_num) (by norm_num)]
  norm_num

theorem UUIDv7.formatUUID_valid {L R : Int} (hL0 : 0 ≤ L) (hL : L < 18446744073709551616)
    (hR0 : 0 ≤ R) (hR : R < 18446744073709551616) :
    UUIDv7.isValid (String.mk (UUIDv7.formatUUID L R)) = true := by
  unfold UUIDv7.isValid
  rw [uuidRegexAccepts_iff]
  refine ⟨fixedDigits 16 8 (L.toNat / 4294967296), fixedDigits 16 4 (L.toNat / 65536 % 65536),
    fixedDigits 16 4 (L.toNat % 65536), fixedDigits 16 4 (R.toNat / 281474976710656),
    fixedDigits 16 12 (R.toNat % 281474976710656),
    uuid7_formatUUID_eq hL0 hL hR0 hR,
    fixedDigits_length 16 8 _, fixedDigits_length 16 4 _, fixedDigits_length 16 4 _,
    fixedDigits_length 16 4 _, fixedDigits_length 16 12 _,
    fun c hc => fixedDigits_all_digits (by norm_num) (by norm_num) _ _ c hc,
    fun c hc => fixedDigits_all_digits (by norm_num) (by norm_num) _ _ c hc,
    fun c hc => fixedDigits_all_digits (by norm_num) (by norm_num) _ _ c hc,
    fun c hc => fixedDigits_all_digits (by norm_num) (by norm_num) _ _ c hc,
    fun c hc => fixedDigits_all_digits (by norm_num) (by norm_num) _ _ c hc⟩

theorem uuid7_parse_format {L R : Int} (hL0 : 0 ≤ L) (hL : L < 18446744073709551616)
    (hR0 : 0 ≤ R) (hR : R < 18446744073709551616) :
    UUIDv7.parse (String.mk (UUIDv7.formatUUID L R)) =
      some ⟨L >>> ((UUIDv7.TIMESTAMP_SHIFT : Nat) : Int),
            Int.land (L >>> ((UUIDv7.RAND_A_LEN : Nat) : Int)) 15,
            R >>> ((UUIDv7.RAND_B_LEN : Nat) : Int),
            jsBigIntToString 10 (Int.land L UUIDv7.RAND_A_MASK),
            jsBigIntToString 10 (Int.land R UUIDv7.RAND_B_MASK), L, R⟩ := by
  have hvalid := UUIDv7.formatUUID_valid hL0 hL hR0 hR
  have hfil : (String.mk (UUIDv7.formatUUID L R)).data.filter (fun c => c ≠ '-') =
      fixedDigits 16 16 L.toNat ++ fixedDigits 16 16 R.toNat :=
    UUIDv7.formatUUID_filter hL0 hL hR0 hR
  have lL : (fixedDigits 16 16 L.toNat).length = 16 := fixedDigits_length 16 16 _
  have htake : (fixedDigits 16 16 L.toNat ++ fixedDigits 16 16 R.toNat).take 16 =
      fixedDigits 16 16 L.toNat := List.take_left' lL
  have hdrop : (fixedDigits 16 16 L.toNat ++ fixedDigits 16 16 R.toNat).drop 16 =
      fixedDigits 16 16 R.toNat := List.drop_left' lL
  have hnnilL : fixedDigits 16 16 L.toNat ≠ [] := by
    intro he
    have hle := congrArg List.length he
    rw [fixedDigits_length] at hle
    cases hle
  have hnnilR : fixedDigits 16 16 R.toNat ≠ [] := by
    intro he
    have hle := congrArg List.length he
    rw [fixedDigits_length] at hle
    cases hle
  have hhexL : jsStringToBigInt (String.mk ('0' :: 'x' :: fixedDigits 16 16 L.toNat)) =
      some ((L.toNat : Nat) : Int) := by
    rw [jsStringToBigInt_hex hnnilL
      (fun c hc => fixedDigits_all_digits (by norm_num) (by norm_num) _ _ c hc)]
    rw [foldDigits_fixedDigits (by norm_num) (by norm_num) 16 L.toNat (by norm_num; omega)]
  have hhexR : jsStringToBigInt (String.mk ('0' :: 'x' :: fixedDigits 16 16 R.toNat)) =
      some ((R.toNat : Nat) : Int) := by
    rw [jsStringToBigInt_hex hnnilR
      (fun c hc => fixedDigits_all_digits (by norm_num) (by norm_num) _ _ c hc)]
    rw [foldDigits_fixedDigits (by norm_num) (by norm_num) 16 R.toNat (by norm_num; omega)]
  have hLcast : ((L.toNat : Nat) : Int) = L := Int.toNat_of_nonneg hL0
  have hRcast : ((R.toNat : Nat) : Int) = R := Int.toNat_of_nonneg hR0
  simp only [UUIDv7.parse, hvalid, Bool.true_eq_false, if_false, hfil, htake, hdrop,
    hhexL, hhexR, hLcast, hRcast, Option.bind_eq_bind, Option.some_bind]
  rfl

theorem uuid7w_parse_format {L R : Int} (hL0 : 0 ≤ L) (hL : L < 18446744073709551616)
    (hR0 : 0 ≤ R) (hR : R < 18446744073709551616) :
    UUIDv7Worker.parse (String.mk (UUIDv7Worker.formatUUID L R)) =
      some ⟨L >>> ((UUIDv7Worker.TIMESTAMP_SHIFT : Nat) : Int),
            Int.land (L >>> ((UUIDv7Worker.RAND_A_LEN : Nat) : Int)) 15,
            R >>> ((UUIDv7Worker.RAND_B_TOTAL_LEN : Nat) : Int), L, R⟩ := by
  rw [uuid7w_formatUUID_eq hL0 hL hR0 hR]
  have hvalid : UUIDv7Worker.isValidUUID (String.mk (UUIDv7.formatUUID L R)) = true :=
    UUIDv7.formatUUID_valid hL0 hL hR0 hR
  have hfil : (String.mk (UUIDv7.formatUUID L R)).data.filter (fun c => c ≠ '-') =
      fixedDigits 16 16 L.toNat ++ fixedDigits 16 16 R.toNat :=
    UUIDv7.formatUUID_filter hL0 hL hR0 hR
  have lL : (fixedDigits 16 16 L.toNat).length = 16 := fixedDigits_length 16 16 _
  have htake : (fixedDigits 16 16 L.toNat ++ fixedDigits 16 16 R.toNat).take 16 =
      fixedDigits 16 16 L.toNat := List.take_left' lL
  have hdrop : (fixedDigits 16 16 L.toNat ++ fixedDigits 16 16 R.toNat).drop 16 =
      fixedDigits 16 16 R.toNat := List.drop_left' lL
  have hnnilL : fixedDigits 16 16 L.toNat ≠ [] := by
    intro he
    have hle := congrArg List.length he
    rw [fixedDigits_length] at hle
    cases hle
  have hnnilR : fixedDigits 16 16 R.toNat ≠ [] := by
    intro he
    have hle := congrArg List.length he
    rw [fixedDigits_length] at hle
    cases hle
  have hhexL : jsStringToBigInt (String.mk ('0' :: 'x' :: fixedDigits 16 16 L.toNat)) =
      some ((L.toNat : Nat) : Int) := by
    rw [jsStringToBigInt_hex hnnilL
      (fun c hc => fixedDigits_all_digits (by norm_num) (by norm_num) _ _ c hc)]
    rw [foldDigits_fixedDigits (by norm_num) (by norm_num) 16 L.toNat (by norm_num; omega)]
  have hhexR : jsStringToBigInt (String.mk ('0' :: 'x' :: fixedDigits 16 16 R.toNat)) =
      some ((R.toNat : Nat) : Int) := by
    rw [jsStringToBigInt_hex hnnilR
      (fun c hc => fixedDigits_all_digits (by norm_num) (by norm_num) _ _ c hc)]
    rw [foldDigits_fixedDigits (by norm_num) (by norm_num) 16 R.toNat (by norm_num; omega)]
  have hLcast : ((L.toNat : Nat) : Int) = L := Int.toNat_of_nonneg hL0
  have hRcast : ((R.toNat : Nat) : Int) = R := Int.toNat_of_nonneg hR0
  simp only [UUIDv7Worker.parse, hvalid, Bool.true_eq_false, if_false, hfil, htake, hdrop,
    hhexL, hhexR, hLcast, hRcast, Option.bind_eq_bind, Option.some_bind]
  rfl

/-- C2: round trip of packing and unpacking. For every Snowflake field
triple within bounds (timestamp with `timestamp - EPOCH` in `[0, 2^41)`,
workerId in `[0, 2^10)`, sequence in `[0, 2^12)`), parsing the decimal
string of the packed identifier returns exactly the original fields; for
every UUIDv7 field triple within bounds (timestamp in `[0, 2^48)`,
sequence in `[0, 2^12)`, randB value within its 62-bit width), parsing
the formatted UUID string returns the original timestamp, version 7,
variant 2, and the decimal strings of the original sequence (randA) and
randB value, together with the two packed 64-bit halves. -/

theorem claim_C2 :
    (∀ t w s : Int, Snowflake.EPOCH ≤ t → t - Snowflake.EPOCH < 2 ^ 41 →
      0 ≤ w → w < 1024 → 0 ≤ s → s < 4096 →
      Snowflake.parse (String.mk (jsBigIntToString 10 (Snowflake.packBits t w s))) =
        some ⟨t, w, s, fixedDigits 2 64 (Snowflake.packBits t w s).toNat⟩) ∧
    (∀ ts sq rb : Int, 0 ≤ ts → ts < 2 ^ 48 → 0 ≤ sq → sq < 4096 → 0 ≤ rb → rb < 2 ^ 62 →
      UUIDv7.parse (String.mk (UUIDv7.formatUUID (UUIDv7.packBits ts sq rb).1
          (UUIDv7.packBits ts sq rb).2)) =
        some ⟨ts, 7, 2, jsBigIntToString 10 sq, jsBigIntToString 10 rb,
              (UUIDv7.packBits ts sq rb).1, (UUIDv7.packBits ts sq rb).2⟩) := by
  constructor
  · intro t w s ht htlt hw0 hw hs0 hs
    have hpack := snowflake_packBits_eq ht hw0 (by omega) hs0 (by omega)
    have hv0 : 0 ≤ Snowflake.packBits t w s := by
      rw [hpack]
      have h1 : (0 : Int) ≤ (t - Snowflake.EPOCH) * 4194304 := by
        apply mul_nonneg (by omega) (by norm_num)
      omega
    have hvlt : Snowflake.packBits t w s < 2 ^ 63 := by
      rw [hpack]
      have h1 : (t - Snowflake.EPOCH) * 4194304 ≤ (2 ^ 41 - 1) * 4194304 := by
        apply mul_le_mul_of_nonneg_right (by omega) (by norm_num)
      have h2 : ((2 : Int) ^ 41 - 1) * 4194304 = 2 ^ 63 - 4194304 := by norm_num
      omega
    rw [Snowflake.parse_of_value hv0 hvlt]
    have hNc : ((Snowflake.packBits t w s).toNat : Int) =
        (t - Snowflake.EPOCH) * 4194304 + w * 4096 + s := by
      rw [Int.toNat_of_nonneg hv0, hpack]
    apply congrArg some
    have f1 : (((Snowflake.packBits t w s).toNat / 4194304 % 2199023255552 : Nat) : Int) +
        Snowflake.EPOCH = t := by omega
    have f2 : (((Snowflake.packBits t w s).toNat / 4096 % 1024 : Nat) : Int) = w := by omega
    have f3 : (((Snowflake.packBits t w s).toNat % 4096 : Nat) : Int) = s := by omega
    rw [f1, f2, f3]
  · intro ts sq rb hts0 hts hsq0 hsq hrb0 hrb
    have hmaskB : UUIDv7.RAND_B_MASK = 2 ^ 62 - 1 := by decide
    have hlandB : Int.land rb UUIDv7.RAND_B_MASK = rb := by
      rw [hmaskB, int_land_pow2m1 hrb0 62]
      exact Int.emod_eq_of_lt hrb0 hrb
    have hpack := @uuid7_packBits_eq ts sq rb hts0 hsq0 (by omega)
    have hL : (UUIDv7.packBits ts sq rb).1 = ts * 65536 + 28672 + sq := by
      simp only [hpack]
    have hR : (UUIDv7.packBits ts sq rb).2 = 9223372036854775808 + rb := by
      simp only [hpack]
      rw [hlandB]
    rw [hL, hR]
    have hL0 : (0 : Int) ≤ ts * 65536 + 28672 + sq := by
      have h1 : (0 : Int) ≤ ts * 65536 := mul_nonneg hts0 (by norm_num)
      omega
    have hLlt : ts * 65536 + 28672 + sq < 18446744073709551616 := by
      have h1 : ts * 65536 ≤ (2 ^ 48 - 1) * 65536 := by
        apply mul_le_mul_of_nonneg_right (by omega) (by norm_num)
      have h2 : ((2 : Int) ^ 48 - 1) * 65536 = 18446744073709551616 - 65536 := by norm_num
      omega
    have hR0 : (0 : Int) ≤ 9223372036854775808 + rb := by omega
    have hRlt : (9223372036854775808 : Int) + rb < 18446744073709551616 := by
      have h1 : (2 : Int) ^ 62 = 4611686018427387904 := by norm_num
      omega
    rw [uuid7_parse_format hL0 hLlt hR0 hRlt]
    apply congrArg some
    have e1 : (ts * 65536 + 28672 + sq) >>> ((UUIDv7.TIMESTAMP_SHIFT : Nat) : Int) = ts := by
      rw [show ((UUIDv7.TIMESTAMP_SHIFT : Nat) : Int) = ((16 : Nat) : Int) from rfl,
        int_shiftRight_eq hL0 16]
      have h1 : (2 : Int) ^ 16 = 65536 := by norm_num
      omega
    have e2 : Int.land ((ts * 65536 + 28672 + sq) >>> ((UUIDv7.RAND_A_LEN : Nat) : Int)) 15 = 7 := by
      rw [show ((UUIDv7.RAND_A_LEN : Nat) : Int) = ((12 : Nat) : Int) from rfl,
        int_shiftRight_eq hL0 12,
        show (15 : Int) = 2 ^ 4 - 1 from by norm_num,
        int_land_pow2m1 (Int.ediv_nonneg hL0 (by norm_num)) 4]
      have h1 : (2 : Int) ^ 12 = 4096 := by norm_num
      have h2 : (2 : Int) ^ 4 = 16 := by norm_num
      omega
    have e3 : (9223372036854775808 + rb) >>> ((UUIDv7.RAND_B_LEN : Nat) : Int) = 2 := by
      rw [show ((UUIDv7.RAND_B_LEN : Nat) : Int) = ((62 : Nat) : Int) from rfl,
        int_shiftRight_eq hR0 62]
      have h1 : (2 : Int) ^ 62 = 4611686018427387904 := by norm_num
      omega
    have e4 : Int.land (ts * 65536 + 28672 + sq) UUIDv7.RAND_A_MASK = sq := by
      rw [show UUIDv7.RAND_A_MASK = (2 : Int) ^ 12 - 1 from by decide,
        int_land_pow2m1 hL0 12]
      have h1 : (2 : Int) ^ 12 = 4096 := by norm_num
      omega
    have e5 : Int.land (9223372036854775808 + rb) UUIDv7.RAND_B_MASK = rb := by
      rw [hmaskB, int_land_pow2m1 hR0 62]
      have h1 : (2 : Int) ^ 62 = 4611686018427387904 := by norm_num
      omega
    rw [e1, e2, e3, e4, e5]

theorem claim_C2_witness :
    Snowflake.parse (String.mk (jsBigIntToString 10 (Snowflake.packBits (Snowflake.EPOCH + 1) 3 2))) =
      some ⟨Snowflake.EPOCH + 1, 3, 2,
            fixedDigits 2 64 (Snowflake.packBits (Snowflake.EPOCH + 1) 3 2).toNat⟩ ∧
    UUIDv7.parse (String.mk (UUIDv7.formatUUID (UUIDv7.packBits 1716093634155 9 5).1
        (UUIDv7.packBits 1716093634155 9 5).2)) =
      some ⟨1716093634155, 7, 2, jsBigIntToString 10 9, jsBigIntToString 10 5,
            (UUIDv7.packBits 1716093634155 9 5).1, (UUIDv7.packBits 1716093634155 9 5).2⟩ :=
  ⟨claim_C2.1 (Snowflake.EPOCH + 1) 3 2 (by decide) (by decide) (by decide) (by decide)
      (by decide) (by decide),
   claim_C2.2 1716093634155 9 5 (by decide) (by decide) (by decide) (by decide)
      (by decide) (by decide)⟩

/-! ### Generate-level inversion and parse-of-pack lemmas -/

theorem snowflake_generate_ok_inv {st st1 : Snowflake.State} {clock : Nat → Int}
    {fuel : Nat} {u : List Char} (h : Snowflake.generate st clock fuel = .ok st1 u) :
    ∃ t s, Snowflake.getTimestampAndSequence st clock fuel = .ok st1 t s ∧
      u = jsBigIntToString 10 (Snowflake.packBits t st.workerId s) := by
  cases hstep : Snowflake.getTimestampAndSequence st clock fuel with
  | ok st' t s =>
    have he : Snowflake.generate st clock fuel =
        .ok st' (jsBigIntToString 10 (Snowflake.packBits t st.workerId s)) := by
      unfold Snowflake.generate Snowflake.generateBinary
      rw [hstep]
    rw [he] at h
    injection h with h1 h2
    subst h1
    exact ⟨t, s, rfl, h2.symm⟩
  | clockRegression st' =>
    have he : Snowflake.generate st clock fuel = .clockRegression st' := by
      unfold Snowflake.generate Snowflake.generateBinary
      rw [hstep]
    rw [he] at h
    cases h
  | outOfFuel =>
    have he : Snowflake.generate st clock fuel = .outOfFuel := by
      unfold Snowflake.generate Snowflake.generateBinary
      rw [hstep]
    rw [he] at h
    cases h

theorem uuid7_generate_ok_inv {st st1 : UUIDv7.State} {clock : Nat → Int} {random : Int}
    {fuel : Nat} {u : List Char} (h : UUIDv7.generate st clock random fuel = .ok st1 u) :
    ∃ t s, UUIDv7.getTimestampAndSequence st clock fuel = .ok st1 t s ∧
      u = UUIDv7.formatUUID (UUIDv7.packBits t s random).1 (UUIDv7.packBits t s random).2 := by
  cases hstep : UUIDv7.getTimestampAndSequence st clock fuel with
  | ok st' t s =>
    have he : UUIDv7.generate st clock random fuel =
        .ok st' (UUIDv7.formatUUID (UUIDv7.packBits t s random).1
          (UUIDv7.packBits t s random).2) := by
      unfold UUIDv7.generate UUIDv7.generateBinary
      rw [hstep]
    rw [he] at h
    injection h with h1 h2
    subst h1
    exact ⟨t, s, rfl, h2.symm⟩
  | clockRegression st' =>
    have he : UUIDv7.generate st clock random fuel = .clockRegression st' := by
      unfold UUIDv7.generate UUIDv7.generateBinary
      rw [hstep]
    rw [he] at h
    cases h
  | outOfFuel =>
    have he : UUIDv7.generate st clock random fuel = .outOfFuel := by
      unfold UUIDv7.generate UUIDv7.generateBinary
      rw [hstep]
    rw [he] at h
    cases h

theorem uuid7w_generate_ok_inv {st st1 : UUIDv7Worker.State} {clock : Nat → Int}
    {random : Int} {fuel : Nat} {u : List Char}
    (h : UUIDv7Worker.generate st clock random fuel = .ok st1 u) :
    ∃ t s, UUIDv7Worker.getTimestampAndSequence st clock fuel = .ok st1 t s ∧
      u = UUIDv7Worker.formatUUID
        (UUIDv7Worker.packBits t st.workerId s (UUIDv7Worker.getRandomByte random).1
          (UUIDv7Worker.getRandomByte random).2).1
        (UUIDv7Worker.packBits t st.workerId s (UUIDv7Worker.getRandomByte random).1
          (UUIDv7Worker.getRandomByte random).2).2 := by
  cases hstep : UUIDv7Worker.getTimestampAndSequence st clock fuel with
  | ok st' t s =>
    have he : UUIDv7Worker.generate st clock random fuel =
        .ok st' (UUIDv7Worker.formatUUID
          (UUIDv7Worker.packBits t st.workerId s (UUIDv7Worker.getRandomByte random).1
            (UUIDv7Worker.getRandomByte random).2).1
          (UUIDv7Worker.packBits t st.workerId s (UUIDv7Worker.getRandomByte random).1
            (UUIDv7Worker.getRandomByte random).2).2) := by
      unfold UUIDv7Worker.generate UUIDv7Worker.generateBinary
      rw [hstep]
    rw [he] at h
    injection h with h1 h2
    subst h1
    exact ⟨t, s, rfl, h2.symm⟩
  | clockRegression st' =>
    have he : UUIDv7Worker.generate st clock random fuel = .clockRegression st' := by
      unfold UUIDv7Worker.generate UUIDv7Worker.generateBinary
      rw [hstep]
    rw [he] at h
    cases h
  | outOfFuel =>
    have he : UUIDv7Worker.generate st clock random fuel = .outOfFuel := by
      unfold UUIDv7Worker.generate UUIDv7Worker.generateBinary
      rw [hstep]
    rw [he] at h
    cases h

theorem uuid7_parse_pack {ts sq random : Int} (hts0 : 0 ≤ ts) (hts : ts < 2 ^ 48)
    (hsq0 : 0 ≤ sq) (hsq : sq ≤ 4095) :
    UUIDv7.parse (String.mk (UUIDv7.formatUUID (UUIDv7.packBits ts sq random).1
        (UUIDv7.packBits ts sq random).2)) =
      some ⟨ts, 7, 2, jsBigIntToString 10 sq,
            jsBigIntToString 10 (Int.land random UUIDv7.RAND_B_MASK),
            (UUIDv7.packBits ts sq random).1, (UUIDv7.packBits ts sq random).2⟩ := by
  have hmaskB : UUIDv7.RAND_B_MASK = 2 ^ 62 - 1 := by decide
  have hrb := int_land_pow2m1_bounds random 62
  rw [← hmaskB] at hrb
  have hpack := @uuid7_packBits_eq ts sq random hts0 hsq0 hsq
  have hL : (UUIDv7.packBits ts sq random).1 = ts * 65536 + 28672 + sq := by
    simp only [hpack]
  have hR : (UUIDv7.packBits ts sq random).2 =
      9223372036854775808 + Int.land random UUIDv7.RAND_B_MASK := by
    simp only [hpack]
  rw [hL, hR]
  have h62 : (2 : Int) ^ 62 = 4611686018427387904 := by norm_num
  have hL0 : (0 : Int) ≤ ts * 65536 + 28672 + sq := by
    have h1 : (0 : Int) ≤ ts * 65536 := mul_nonneg hts0 (by norm_num)
    omega
  have hLlt : ts * 65536 + 28672 + sq < 18446744073709551616 := by
    have h1 : ts * 65536 ≤ (2 ^ 48 - 1) * 65536 := by
      apply mul_le_mul_of_nonneg_right (by omega) (by norm_num)
    have h2 : ((2 : Int) ^ 48 - 1) * 65536 = 18446744073709551616 - 65536 := by norm_num
    omega
  have hR0 : (0 : Int) ≤ 9223372036854775808 + Int.land random UUIDv7.RAND_B_MASK := by
    have := hrb.1
    omega
  have hRlt : (9223372036854775808 : Int) + Int.land random UUIDv7.RAND_B_MASK <
      18446744073709551616 := by
    have := hrb.2
    omega
  rw [uuid7_parse_format hL0 hLlt hR0 hRlt]
  apply congrArg some
  have e1 : (ts * 65536 + 28672 + sq) >>> ((UUIDv7.TIMESTAMP_SHIFT : Nat) : Int) = ts := by
    rw [show ((UUIDv7.TIMESTAMP_SHIFT : Nat) : Int) = ((16 : Nat) : Int) from rfl,
      int_shiftRight_eq hL0 16]
    have h1 : (2 : Int) ^ 16 = 65536 := by norm_num
    omega
  have e2 : Int.land ((ts * 65536 + 28672 + sq) >>> ((UUIDv7.RAND_A_LEN : Nat) : Int)) 15 = 7 := by
    rw [show ((UUIDv7.RAND_A_LEN : Nat) : Int) = ((12 : Nat) : Int) from rfl,
      int_shiftRight_eq hL0 12,
      show (15 : Int) = 2 ^ 4 - 1 from by norm_num,
      int_land_pow2m1 (Int.ediv_nonneg hL0 (by norm_num)) 4]
    have h1 : (2 : Int) ^ 12 = 4096 := by norm_num
    have h2 : (2 : Int) ^ 4 = 16 := by norm_num
    omega
  have e3 : (9223372036854775808 + Int.land random UUIDv7.RAND_B_MASK) >>>
      ((UUIDv7.RAND_B_LEN : Nat) : Int) = 2 := by
    rw [show ((UUIDv7.RAND_B_LEN : Nat) : Int) = ((62 : Nat) : Int) from rfl,
      int_shiftRight_eq hR0 62]
    have := hrb.1
    have := hrb.2
    omega
  have e4 : Int.land (ts * 65536 + 28672 + sq) UUIDv7.RAND_A_MASK = sq := by
    rw [show UUIDv7.RAND_A_MASK = (2 : Int) ^ 12 - 1 from by decide,
      int_land_pow2m1 hL0 12]
    have h1 : (2 : Int) ^ 12 = 4096 := by norm_num
    omega
  have e5 : Int.land (9223372036854775808 + Int.land random UUIDv7.RAND_B_MASK)
      UUIDv7.RAND_B_MASK = Int.land random UUIDv7.RAND_B_MASK := by
    rw [hmaskB, int_land_pow2m1 (by rw [hmaskB] at hrb; have := hrb.1; omega) 62]
    rw [hmaskB] at hrb
    have := hrb.1
    have := hrb.2
    omega
  rw [e1, e2, e3, e4, e5]

theorem uuid7w_parse_pack {ts w sq ra rb : Int} (hts0 : 0 ≤ ts) (hts : ts < 2 ^ 48)
    (hw0 : 0 ≤ w) (hw : w ≤ 1023) (hsq0 : 0 ≤ sq) (hsq : sq ≤ 4095)
    (hra0 : 0 ≤ ra) (hra : ra ≤ 4095) (hrb0 : 0 ≤ rb) (hrb : rb < 2 ^ 40) :
    UUIDv7Worker.parse (String.mk (UUIDv7Worker.formatUUID
        (UUIDv7Worker.packBits ts w sq ra rb).1 (UUIDv7Worker.packBits ts w sq ra rb).2)) =
      some ⟨ts, 7, 2, (UUIDv7Worker.packBits ts w sq ra rb).1,
            (UUIDv7Worker.packBits ts w sq ra rb).2⟩ := by
  have hpack := uuid7w_packBits_eq hts0 hw0 hw hsq0 hsq hra0 hra hrb0 hrb
  have hL : (UUIDv7Worker.packBits ts w sq ra rb).1 = ts * 65536 + 28672 + ra := by
    simp only [hpack]
  have hR : (UUIDv7Worker.packBits ts w sq ra rb).2 =
      9223372036854775808 + w * 4503599627370496 + sq * 1099511627776 + rb := by
    simp only [hpack]
  rw [hL, hR]
  have h40 : (2 : Int) ^ 40 = 1099511627776 := by norm_num
  have hwle : w * 4503599627370496 ≤ 1023 * 4503599627370496 :=
    mul_le_mul_of_nonneg_right hw (by norm_num)
  have hwge : (0 : Int) ≤ w * 4503599627370496 := mul_nonneg hw0 (by norm_num)
  have hsqle : sq * 1099511627776 ≤ 4095 * 1099511627776 :=
    mul_le_mul_of_nonneg_right hsq (by norm_num)
  have hsqge : (0 : Int) ≤ sq * 1099511627776 := mul_nonneg hsq0 (by norm_num)
  have hL0 : (0 : Int) ≤ ts * 65536 + 28672 + ra := by
    have h1 : (0 : Int) ≤ ts * 65536 := mul_nonneg hts0 (by norm_num)
    omega
  have hLlt : ts * 65536 + 28672 + ra < 18446744073709551616 := by
    have h1 : ts * 65536 ≤ (2 ^ 48 - 1) * 65536 := by
      apply mul_le_mul_of_nonneg_right (by omega) (by norm_num)
    have h2 : ((2 : Int) ^ 48 - 1) * 65536 = 18446744073709551616 - 65536 := by norm_num
    omega
  have hR0 : (0 : Int) ≤ 9223372036854775808 + w * 4503599627370496 + sq * 1099511627776 + rb := by
    omega
  have hRlt : (9223372036854775808 : Int) + w * 4503599627370496 + sq * 1099511627776 + rb <
      18446744073709551616 := by
    omega
  rw [uuid7w_parse_format hL0 hLlt hR0 hRlt]
  apply congrArg some
  have e1 : (ts * 65536 + 28672 + ra) >>> ((UUIDv7Worker.TIMESTAMP_SHIFT : Nat) : Int) = ts := by
    rw [show ((UUIDv7Worker.TIMESTAMP_SHIFT : Nat) : Int) = ((16 : Nat) : Int) from rfl,
      int_shiftRight_eq hL0 16]
    have h1 : (2 : Int) ^ 16 = 65536 := by norm_num
    omega
  have e2 : Int.land ((ts * 65536 + 28672 + ra) >>> ((UUIDv7Worker.RAND_A_LEN : Nat) : Int)) 15 = 7 := by
    rw [show ((UUIDv7Worker.RAND_A_LEN : Nat) : Int) = ((12 : Nat) : Int) from rfl,
      int_shiftRight_eq hL0 12,
      show (15 : Int) = 2 ^ 4 - 1 from by norm_num,
      int_land_pow2m1 (Int.ediv_nonneg hL0 (by norm_num)) 4]
    have h1 : (2 : Int) ^ 12 = 4096 := by norm_num
    have h2 : (2 : Int) ^ 4 = 16 := by norm_num
    omega
  have e3 : (9223372036854775808 + w * 4503599627370496 + sq * 1099511627776 + rb) >>>
      ((UUIDv7Worker.RAND_B_TOTAL_LEN : Nat) : Int) = 2 := by
    rw [show ((UUIDv7Worker.RAND_B_TOTAL_LEN : Nat) : Int) = ((62 : Nat) : Int) from rfl,
      int_shiftRight_eq hR0 62]
    have h1 : (2 : Int) ^ 62 = 4611686018427387904 := by norm_num
    omega
  rw [e1, e2, e3]

/-- C9: every UUID produced by a successful `generate()` call of either
UUIDv7 variant parses back with version 7, variant 2, and a timestamp
equal to the `lastTimestamp` the call recorded; when the call observes
a fresh millisecond (`lastTimestamp < clock 0`, e.g. a fresh generator
at clock value 1716093634155) that timestamp is exactly the observed
clock value, regardless of the random bits drawn. Clock readings are
assumed to be valid 48-bit timestamps, the one-argument variant's
stored offset in `[0, 4095]`, the two-argument variant's workerId in
`[0, 1023]` and its random value a 64-bit value. -/

theorem claim_C9 :
    (∀ (st st1 : UUIDv7.State) (clock : Nat → Int) (random : Int) (fuel : Nat) (u : List Char),
      (∀ i, 0 ≤ clock i ∧ clock i < 2 ^ 48) →
      0 ≤ st.sequenceOffset → st.sequenceOffset ≤ 4095 →
      UUIDv7.generate st clock random fuel = .ok st1 u →
      ∃ r : UUIDv7.Parsed, UUIDv7.parse (String.mk u) = some r ∧
        r.version = 7 ∧ r.variant = 2 ∧ r.timestamp = st1.lastTimestamp ∧
        (st.lastTimestamp < clock 0 → r.timestamp = clock 0)) ∧
    (∀ (st st1 : UUIDv7Worker.State) (clock : Nat → Int) (random : Int) (fuel : Nat) (u : List Char),
      (∀ i, 0 ≤ clock i ∧ clock i < 2 ^ 48) →
      0 ≤ st.workerId → st.workerId ≤ 1023 → 0 ≤ random → random < 2 ^ 64 →
      UUIDv7Worker.generate st clock random fuel = .ok st1 u →
      ∃ r : UUIDv7Worker.Parsed, UUIDv7Worker.parse (String.mk u) = some r ∧
        r.version = 7 ∧ r.variant = 2 ∧ r.timestamp = st1.lastTimestamp ∧
        (st.lastTimestamp < clock 0 → r.timestamp = clock 0)) := by
  constructor
  · intro st st1 clock random fuel u hclock hoff0 hoff hgen
    obtain ⟨t, s, hstep, hu⟩ := uuid7_generate_ok_inv hgen
    obtain ⟨hst1, hcases⟩ := uuid7_step_ok_inv hstep
    have hmask := int_land_pow2m1_bounds (st.sequence + 1) 12
    rw [show ((2 : Int) ^ 12 - 1) = 4095 from by norm_num] at hmask
    have htb : 0 ≤ t ∧ t < 2 ^ 48 := by
      rcases hcases with ⟨_, ht, _⟩ | ⟨_, _, _, ht⟩ | ⟨_, _, _, hwt⟩
      · subst ht
        exact hclock 0
      · subst ht
        exact hclock 0
      · obtain ⟨_, i, hti⟩ := wait_some fuel _ t hwt
        rw [hti]
        exact hclock (i + 1)
    have hsb : 0 ≤ s ∧ s ≤ 4095 := by
      rcases hcases with ⟨_, _, hs⟩ | ⟨_, hs, _, _⟩ | ⟨_, hs, _, _⟩
      · subst hs
        exact ⟨hoff0, hoff⟩
      · subst hs
        exact hmask
      · subst hs
        exact ⟨hoff0, hoff⟩
    subst hu
    refine ⟨_, uuid7_parse_pack htb.1 htb.2 hsb.1 hsb.2, rfl, rfl, ?_, ?_⟩
    · rw [hst1]
    · intro hlt
      rcases hcases with ⟨_, ht, _⟩ | ⟨heq, _, _, _⟩ | ⟨heq, _, _, _⟩
      · exact ht
      · exact absurd heq (by omega)
      · exact absurd heq (by omega)
  · intro st st1 clock random fuel u hclock hw0 hw hr0 hrlt hgen
    obtain ⟨t, s, hstep, hu⟩ := uuid7w_generate_ok_inv hgen
    obtain ⟨hst1, hcases⟩ := uuid7w_step_ok_inv hstep
    have hmask := int_land_pow2m1_bounds (st.sequence + 1) 12
    rw [show ((2 : Int) ^ 12 - 1) = 4095 from by norm_num] at hmask
    have htb : 0 ≤ t ∧ t < 2 ^ 48 := by
      rcases hcases with ⟨_, ht, _⟩ | ⟨_, _, _, ht⟩ | ⟨_, _, _, hwt⟩
      · subst ht
        exact hclock 0
      · subst ht
        exact hclock 0
      · obtain ⟨_, i, hti⟩ := wait_some fuel _ t hwt
        rw [hti]
        exact hclock (i + 1)
    have hsb : 0 ≤ s ∧ s ≤ 4095 := by
      rcases hcases with ⟨_, _, hs⟩ | ⟨_, hs, _, _⟩ | ⟨_, hs, _, _⟩
      · subst hs
        exact ⟨le_refl 0, by norm_num⟩
      · subst hs
        exact hmask
      · subst hs
        exact ⟨le_refl 0, by norm_num⟩
    have hra : 0 ≤ (UUIDv7Worker.getRandomByte random).1 ∧
        (UUIDv7Worker.getRandomByte random).1 ≤ 4095 := by
      have hb := int_land_pow2m1_bounds random 12
      rw [show ((2 : Int) ^ 12 - 1) = 4095 from by norm_num] at hb
      exact hb
    have hrbv : 0 ≤ (UUIDv7Worker.getRandomByte random).2 ∧
        (UUIDv7Worker.getRandomByte random).2 < 2 ^ 40 := by
      show 0 ≤ random >>> ((24 : Nat) : Int) ∧ random >>> ((24 : Nat) : Int) < 2 ^ 40
      rw [int_shiftRight_eq hr0 24]
      constructor
      · exact Int.ediv_nonneg hr0 (by norm_num)
      · have h24 : (2 : Int) ^ 24 = 16777216 := by norm_num
        have h40 : (2 : Int) ^ 40 = 1099511627776 := by norm_num
        have h64 : (2 : Int) ^ 64 = 18446744073709551616 := by norm_num
        omega
    subst hu
    refine ⟨_, uuid7w_parse_pack htb.1 htb.2 hw0 hw hsb.1 hsb.2 hra.1 hra.2
      hrbv.1 hrbv.2, rfl, rfl, ?_, ?_⟩
    · rw [hst1]
    · intro hlt
      rcases hcases with ⟨_, ht, _⟩ | ⟨heq, _, _, _⟩ | ⟨heq, _, _, _⟩
      · exact ht
      · exact absurd heq (by omega)
      · exact absurd heq (by omega)

theorem claim_C9_witness :
    (∃ r : UUIDv7.Parsed,
      UUIDv7.parse (String.mk (UUIDv7.formatUUID (UUIDv7.packBits 1716093634155 0 12345).1
        (UUIDv7.packBits 1716093634155 0 12345).2)) = some r ∧
      r.version = 7 ∧ r.variant = 2 ∧
      r.timestamp = (⟨0, 1716093634155, 0⟩ : UUIDv7.State).lastTimestamp ∧
      ((⟨0, -1, 0⟩ : UUIDv7.State).lastTimestamp < (fun _ : Nat => (1716093634155 : Int)) 0 →
        r.timestamp = (fun _ : Nat => (1716093634155 : Int)) 0)) ∧
    (∃ r : UUIDv7Worker.Parsed,
      UUIDv7Worker.parse (String.mk (UUIDv7Worker.formatUUID
        (UUIDv7Worker.packBits 1716093634155 5 0 (UUIDv7Worker.getRandomByte 99999).1
          (UUIDv7Worker.getRandomByte 99999).2).1
        (UUIDv7Worker.packBits 1716093634155 5 0 (UUIDv7Worker.getRandomByte 99999).1
          (UUIDv7Worker.getRandomByte 99999).2).2)) = some r ∧
      r.version = 7 ∧ r.variant = 2 ∧
      r.timestamp = (⟨5, 1716093634155, 0⟩ : UUIDv7Worker.State).lastTimestamp ∧
      ((⟨5, -1, 0⟩ : UUIDv7Worker.State).lastTimestamp < (fun _ : Nat => (1716093634155 : Int)) 0 →
        r.timestamp = (fun _ : Nat => (1716093634155 : Int)) 0)) :=
  ⟨claim_C9.1 ⟨0, -1, 0⟩ ⟨0, 1716093634155, 0⟩ (fun _ => 1716093634155) 12345 0 _
      (fun _ => show (0 : Int) ≤ 1716093634155 ∧ (1716093634155 : Int) < 2 ^ 48 from ⟨by decide, by decide⟩) (by decide) (by decide) (by decide),
   claim_C9.2 ⟨5, -1, 0⟩ ⟨5, 1716093634155, 0⟩ (fun _ => 1716093634155) 99999 0 _
      (fun _ => show (0 : Int) ≤ 1716093634155 ∧ (1716093634155 : Int) < 2 ^ 48 from ⟨by decide, by decide⟩) (by decide) (by decide) (by decide) (by decide) (by decide)⟩


theorem parseIntList_all_digits {B : Nat} {l : List Char} (h : l ≠ [])
    (hall : ∀ c ∈ l, isRadixDigit B c = true) :
    parseIntList B l = some ((foldDigits B l : Nat) : Int) := by
  cases l with
  | nil => exact absurd rfl h
  | cons c rest =>
    have hc : isRadixDigit B c = true := hall c (by simp)
    have hcdash : c ≠ '-' := by
      intro he
      rw [he, isRadixDigit_dash] at hc
      cases hc
    have hcplus : c ≠ '+' := by
      intro he
      rw [he, isRadixDigit_plus] at hc
      cases hc
    rw [parseIntList_cons, if_neg hcdash, if_neg hcplus]
    unfold parseDigitsRun
    rw [show (c :: rest).takeWhile (fun c => isRadixDigit B c) = c :: rest from
      takeWhile_all_true hall]
    rw [if_neg (by simp)]
    rfl

theorem Snowflake.parse_slices_some {B : List Char} (hlen : 64 ≤ B.length)
    (hdig : ∀ c ∈ B, isRadixDigit 2 c = true) :
    ∃ p : Snowflake.Parsed,
      (do
        let t ← parseIntList 2 ((B.take 42).drop 1)
        let w ← parseIntList 2 ((B.take 52).drop 42)
        let s ← parseIntList 2 (B.drop 52)
        pure ⟨t + Snowflake.EPOCH, w, s, B⟩ : Option Snowflake.Parsed) = some p := by
  have hs1ne : (B.take 42).drop 1 ≠ [] := by
    intro he
    have := congrArg List.length he
    simp only [List.length_drop, List.length_take, List.length_nil] at this
    omega
  have hs2ne : (B.take 52).drop 42 ≠ [] := by
    intro he
    have := congrArg List.length he
    simp only [List.length_drop, List.length_take, List.length_nil] at this
    omega
  have hs3ne : B.drop 52 ≠ [] := by
    intro he
    have := congrArg List.length he
    simp only [List.length_drop, List.length_nil] at this
    omega
  have hd1 : ∀ c ∈ (B.take 42).drop 1, isRadixDigit 2 c = true :=
    fun c hc => hdig c (List.mem_of_mem_take (List.mem_of_mem_drop hc))
  have hd2 : ∀ c ∈ (B.take 52).drop 42, isRadixDigit 2 c = true :=
    fun c hc => hdig c (List.mem_of_mem_take (List.mem_of_mem_drop hc))
  have hd3 : ∀ c ∈ B.drop 52, isRadixDigit 2 c = true :=
    fun c hc => hdig c (List.mem_of_mem_drop hc)
  rw [show ((do
        let t ← parseIntList 2 ((B.take 42).drop 1)
        let w ← parseIntList 2 ((B.take 52).drop 42)
        let s ← parseIntList 2 (B.drop 52)
        pure ⟨t + Snowflake.EPOCH, w, s, B⟩ : Option Snowflake.Parsed)) =
      Option.bind (parseIntList 2 ((B.take 42).drop 1)) (fun t =>
        Option.bind (parseIntList 2 ((B.take 52).drop 42)) (fun w =>
          Option.bind (parseIntList 2 (B.drop 52)) (fun s =>
            some ⟨t + Snowflake.EPOCH, w, s, B⟩))) from rfl]
  rw [parseIntList_all_digits hs1ne hd1, Option.some_bind,
      parseIntList_all_digits hs2ne hd2, Option.some_bind,
      parseIntList_all_digits hs3ne hd3, Option.some_bind]
  exact ⟨_, rfl⟩

theorem Snowflake.toBinaryString_of_nonneg {v : Int} (h0 : 0 ≤ v) :
    ∃ B : List Char, Snowflake.toBinaryString (String.mk (jsBigIntToString 10 v)) = some B ∧
      64 ≤ B.length ∧ ∀ c ∈ B, isRadixDigit 2 c = true := by
  have hjs : jsStringToBigInt (String.mk (jsBigIntToString 10 v)) = some v := by
    rw [jsBigIntToString_nonneg h0, jsStringToBigInt_decimal, Int.toNat_of_nonneg h0]
  unfold Snowflake.toBinaryString
  rw [hjs, Option.map_some']
  have hbin : jsBigIntToString 2 v = natToDigits 2 v.toNat := jsBigIntToString_nonneg h0
  have hdig : ∀ c ∈ natToDigits 2 v.toNat, isRadixDigit 2 c = true :=
    natToDigits_all_digits (by norm_num) (by norm_num) v.toNat
  by_cases hlt : (jsBigIntToString 2 v).length < 64
  · refine ⟨padStartList 64 '0' (jsBigIntToString 2 v), ?_, ?_, ?_⟩
    · rw [if_pos hlt]
    · unfold padStartList
      simp only [List.length_append, List.length_replicate]
      omega
    · intro c hc
      unfold padStartList at hc
      rcases List.mem_append.mp hc with hc | hc
      · rw [List.eq_of_mem_replicate hc]
        decide
      · rw [hbin] at hc
        exact hdig c hc
  · refine ⟨jsBigIntToString 2 v, ?_, by omega, ?_⟩
    · rw [if_neg hlt]
    · intro c hc
      rw [hbin] at hc
      exact hdig c hc

theorem Snowflake.parse_some_of_value {v : Int} (h0 : 0 ≤ v) :
    ∃ p : Snowflake.Parsed, Snowflake.parse (String.mk (jsBigIntToString 10 v)) = some p := by
  obtain ⟨B, hB, hlen, hdig⟩ := Snowflake.toBinaryString_of_nonneg h0
  unfold Snowflake.parse
  rw [hB]
  simp only [Option.bind_eq_bind, Option.some_bind]
  exact Snowflake.parse_slices_some hlen hdig

/-- C7 counterexample: the 65-bit value 2^64 is wider than the 64-bit
layout, yet `Snowflake.parse` returns a (misfielded) result instead of
failing: every field reads as zero because the slicing is taken from
the wrong positions of the 65-character binary string. -/
theorem claim_C7_counterexample :
    Snowflake.parse ("18446744073709551616") =
      some ⟨Snowflake.EPOCH, 0, 0, '1' :: List.replicate 64 '0'⟩ := by decide

/-- C7 amended: `Snowflake.parse` fails exactly on inputs rejected by
the `BigInt` string conversion (non-numeric input) and it propagates no
partial result in that case; but it performs no bit-width check: every
nonnegative numeric input, however wide, produces a parse result. The
two UUIDv7 parsers reject every string that fails the grammar check. -/
theorem claim_C7 :
    (∀ id : String, jsStringToBigInt id = none → Snowflake.parse id = none) ∧
    (∀ v : Int, 0 ≤ v → ∃ p : Snowflake.Parsed,
      Snowflake.parse (String.mk (jsBigIntToString 10 v)) = some p) ∧
    (∀ s : String, UUIDv7.isValid s = false → UUIDv7.parse s = none) ∧
    (∀ s : String, UUIDv7Worker.isValidUUID s = false → UUIDv7Worker.parse s = none) := by
  refine ⟨?_, fun v h0 => Snowflake.parse_some_of_value h0, ?_, ?_⟩
  · intro id h
    unfold Snowflake.parse Snowflake.toBinaryString
    rw [h]
    rfl
  · intro s h
    unfold UUIDv7.parse
    rw [h, if_pos rfl]
  · intro s h
    unfold UUIDv7Worker.parse
    rw [h, if_pos rfl]

/-- Witness for C7 at concrete inputs. -/
theorem claim_C7_witness :
    Snowflake.parse ("abc") = none ∧
    (∃ p : Snowflake.Parsed,
      Snowflake.parse (String.mk (jsBigIntToString 10 18446744073709551616)) = some p) ∧
    UUIDv7.parse ("not-a-uuid") = none ∧
    UUIDv7Worker.parse ("not-a-uuid") = none :=
  ⟨claim_C7.1 ("abc") (by decide),
   claim_C7.2.1 18446744073709551616 (by decide),
   claim_C7.2.2.1 ("not-a-uuid") (by decide),
   claim_C7.2.2.2 ("not-a-uuid") (by decide)⟩

/-! ### Executable lexicographic comparison and ordering helpers -/

def lexLtb : List Char → List Char → Bool
  | [], [] => false
  | [], _ :: _ => true
  | _ :: _, [] => false
  | a :: as, b :: bs => if a < b then true else if a = b then lexLtb as bs else false

theorem lexLtb_iff : ∀ l1 l2 : List Char, lexLtb l1 l2 = true ↔ LexLt l1 l2 := by
  intro l1
  induction l1 with
  | nil =>
    intro l2
    cases l2 with
    | nil =>
      constructor
      · intro h
        cases h
      · intro h
        exact absurd h (List.Lex.not_nil_right _ _)
    | cons b bs =>
      constructor
      · intro h
        exact List.Lex.nil
      · intro h
        rfl
  | cons a as ih =>
    intro l2
    cases l2 with
    | nil =>
      constructor
      · intro h
        cases h
      · intro h
        exact absurd h (List.Lex.not_nil_right _ _)
    | cons b bs =>
      show (if a < b then true else if a = b then lexLtb as bs else false) = true ↔ _
      rw [lex_cons_iff]
      by_cases hab : a < b
      · rw [if_pos hab]
        simp [hab]
      · rw [if_neg hab]
        by_cases heq : a = b
        · rw [if_pos heq, ih bs]
          constructor
          · intro h
            exact Or.inr ⟨heq, h⟩
          · rintro (h | ⟨_, h⟩)
            · exact absurd h hab
            · exact h
        · rw [if_neg heq]
          constructor
          · intro h
            cases h
          · rintro (h | ⟨h, _⟩)
            · exact absurd h hab
            · exact absurd h heq

theorem snowflake_pair_increase {st st1 st2 : Snowflake.State} {c1 c2 : Nat → Int} {f1 f2 : Nat}
    {t1 s1 t2 s2 : Int}
    (h1 : Snowflake.getTimestampAndSequence st c1 f1 = .ok st1 t1 s1)
    (h2 : Snowflake.getTimestampAndSequence st1 c2 f2 = .ok st2 t2 s2) :
    t1 < t2 ∨ (t1 = t2 ∧ s1 < s2) := by
  obtain ⟨hst1, hc1⟩ := snowflake_step_ok_inv h1
  obtain ⟨hst2, hc2⟩ := snowflake_step_ok_inv h2
  have hmask1 := int_land_pow2m1_bounds (st.sequence + 1) 12
  rw [show ((2 : Int) ^ 12 - 1) = 4095 from by norm_num] at hmask1
  have hs1b : 0 ≤ s1 ∧ s1 ≤ 4095 := by
    rcases hc1 with ⟨_, _, hs⟩ | ⟨_, hs, _, _⟩ | ⟨_, hs, _, _⟩
    · subst hs
      exact ⟨le_refl 0, by norm_num⟩
    · subst hs
      exact hmask1
    · subst hs
      exact ⟨le_refl 0, by norm_num⟩
  have hl1 : st1.lastTimestamp = t1 := by rw [hst1]
  have hq1 : st1.sequence = s1 := by rw [hst1]
  rcases hc2 with ⟨hlt, ht, _⟩ | ⟨heq, hs, hne, ht⟩ | ⟨heq, _, _, hw⟩
  · left
    omega
  · right
    constructor
    · omega
    · rw [hq1] at hs
      have hland : Int.land (s1 + 1) 4095 = (s1 + 1) % 4096 := by
        rw [show (4095 : Int) = 2 ^ 12 - 1 from by norm_num,
          int_land_pow2m1 (by omega) 12]
        norm_num
      rw [hland] at hs
      omega
  · left
    obtain ⟨hgt, _⟩ := wait_some f2 _ t2 hw
    omega

theorem uuid7_pair_increase {st st1 st2 : UUIDv7.State} {c1 c2 : Nat → Int} {f1 f2 : Nat}
    {t1 s1 t2 s2 : Int} (hoff0 : 0 ≤ st.sequenceOffset) (hoff : st.sequenceOffset ≤ 4095)
    (h1 : UUIDv7.getTimestampAndSequence st c1 f1 = .ok st1 t1 s1)
    (h2 : UUIDv7.getTimestampAndSequence st1 c2 f2 = .ok st2 t2 s2) :
    t1 < t2 ∨ (t1 = t2 ∧ s1 < s2) := by
  obtain ⟨hst1, hc1⟩ := uuid7_step_ok_inv h1
  obtain ⟨hst2, hc2⟩ := uuid7_step_ok_inv h2
  have hmask1 := int_land_pow2m1_bounds (st.sequence + 1) 12
  rw [show ((2 : Int) ^ 12 - 1) = 4095 from by norm_num] at hmask1
  have hs1b : 0 ≤ s1 ∧ s1 ≤ 4095 := by
    rcases hc1 with ⟨_, _, hs⟩ | ⟨_, hs, _, _⟩ | ⟨_, hs, _, _⟩
    · subst hs
      exact ⟨hoff0, hoff⟩
    · subst hs
      exact hmask1
    · subst hs
      exact ⟨hoff0, hoff⟩
  have hl1 : st1.lastTimestamp = t1 := by rw [hst1]
  have hq1 : st1.sequence = s1 := by rw [hst1]
  rcases hc2 with ⟨hlt, ht, _⟩ | ⟨heq, hs, hne, ht⟩ | ⟨heq, _, _, hw⟩
  · left
    omega
  · right
    constructor
    · omega
    · rw [hq1] at hs
      have hland : Int.land (s1 + 1) 4095 = (s1 + 1) % 4096 := by
        rw [show (4095 : Int) = 2 ^ 12 - 1 from by norm_num,
          int_land_pow2m1 (by omega) 12]
        norm_num
      rw [hland] at hs
      omega
  · left
    obtain ⟨hgt, _⟩ := wait_some f2 _ t2 hw
    omega

theorem uuid7w_pair_increase {st st1 st2 : UUIDv7Worker.State} {c1 c2 : Nat → Int}
    {f1 f2 : Nat} {t1 s1 t2 s2 : Int}
    (h1 : UUIDv7Worker.getTimestampAndSequence st c1 f1 = .ok st1 t1 s1)
    (h2 : UUIDv7Worker.getTimestampAndSequence st1 c2 f2 = .ok st2 t2 s2) :
    t1 < t2 ∨ (t1 = t2 ∧ s1 < s2) := by
  obtain ⟨hst1, hc1⟩ := uuid7w_step_ok_inv h1
  obtain ⟨hst2, hc2⟩ := uuid7w_step_ok_inv h2
  have hmask1 := int_land_pow2m1_bounds (st.sequence + 1) 12
  rw [show ((2 : Int) ^ 12 - 1) = 4095 from by norm_num] at hmask1
  have hs1b : 0 ≤ s1 ∧ s1 ≤ 4095 := by
    rcases hc1 with ⟨_, _, hs⟩ | ⟨_, hs, _, _⟩ | ⟨_, hs, _, _⟩
    · subst hs
      exact ⟨le_refl 0, by norm_num⟩
    · subst hs
      exact hmask1
    · subst hs
      exact ⟨le_refl 0, by norm_num⟩
  have hl1 : st1.lastTimestamp = t1 := by rw [hst1]
  have hq1 : st1.sequence = s1 := by rw [hst1]
  rcases hc2 with ⟨hlt, ht, _⟩ | ⟨heq, hs, hne, ht⟩ | ⟨heq, _, _, hw⟩
  · left
    omega
  · right
    constructor
    · omega
    · rw [hq1] at hs
      have hland : Int.land (s1 + 1) 4095 = (s1 + 1) % 4096 := by
        rw [show (4095 : Int) = 2 ^ 12 - 1 from by norm_num,
          int_land_pow2m1 (by omega) 12]
        norm_num
      rw [hland] at hs
      omega
  · left
    obtain ⟨hgt, _⟩ := wait_some f2 _ t2 hw
    omega

theorem uuid_lex_of_left_lt {L1 R1 L2 R2 : Int} (hL10 : 0 ≤ L1) (hL1 : L1 < 18446744073709551616)
    (hL20 : 0 ≤ L2) (hL2 : L2 < 18446744073709551616)
    (hR10 : 0 ≤ R1) (hR1 : R1 < 18446744073709551616)
    (hR20 : 0 ≤ R2) (hR2 : R2 < 18446744073709551616)
    (hlt : L1 < L2) :
    LexLt (UUIDv7.formatUUID L1 R1) (UUIDv7.formatUUID L2 R2) := by
  rw [uuid7_formatUUID_eq hL10 hL1 hR10 hR1, uuid7_formatUUID_eq hL20 hL2 hR20 hR2]
  have h16 : LexLt (fixedDigits 16 16 L1.toNat) (fixedDigits 16 16 L2.toNat) := by
    apply fixedDigits_lt (by norm_num) (by norm_num) 16
    · omega
    · have h : (16 : Nat) ^ 16 = 18446744073709551616 := by norm_num
      omega
  rw [uuid_hex_decompL L1.toNat, uuid_hex_decompL L2.toNat] at h16
  rw [List.append_assoc, List.append_assoc] at h16
  rw [lex_append_iff _ _ (by rw [fixedDigits_length, fixedDigits_length])] at h16
  rw [lex_append_iff _ _ (by rw [fixedDigits_length, fixedDigits_length])]
  rcases h16 with h | ⟨heq, h16⟩
  · exact Or.inl h
  · refine Or.inr ⟨heq, ?_⟩
    rw [lex_cons_iff]
    refine Or.inr ⟨rfl, ?_⟩
    rw [lex_append_iff _ _ (by rw [fixedDigits_length, fixedDigits_length])] at h16
    rw [lex_append_iff _ _ (by rw [fixedDigits_length, fixedDigits_length])]
    rcases h16 with h | ⟨heq2, h16⟩
    · exact Or.inl h
    · refine Or.inr ⟨heq2, ?_⟩
      rw [lex_cons_iff]
      refine Or.inr ⟨rfl, ?_⟩
      rw [lex_append_iff _ _ (by rw [fixedDigits_length, fixedDigits_length])]
      exact Or.inl h16


/-- C1 amended: for each of the three generator classes, two successive
successful `generate()` calls yield strictly increasing
`(timestamp, sequence)` pairs (read off the recorded states; the
one-argument UUIDv7 variant needs its stored offset in `[0, 4095]`).
The encoded identifiers strictly increase as numbers for Snowflake
(valid worker id, clock at or after the epoch) and both as numbers and
in lexicographic string order for the one-argument UUIDv7 variant
(48-bit clock readings). Lexicographic growth fails for Snowflake
decimal strings and both orders fail for the two-argument UUIDv7
variant, as the counterexample shows. -/
theorem claim_C1 :
    (∀ (st st1 st2 : Snowflake.State) (c1 c2 : Nat → Int) (f1 f2 : Nat) (u1 u2 : List Char),
      Snowflake.generate st c1 f1 = .ok st1 u1 →
      Snowflake.generate st1 c2 f2 = .ok st2 u2 →
      st1.lastTimestamp < st2.lastTimestamp ∨
        (st1.lastTimestamp = st2.lastTimestamp ∧ st1.sequence < st2.sequence)) ∧
    (∀ (st st1 st2 : UUIDv7.State) (c1 c2 : Nat → Int) (r1 r2 : Int) (f1 f2 : Nat)
        (u1 u2 : List Char),
      0 ≤ st.sequenceOffset → st.sequenceOffset ≤ 4095 →
      UUIDv7.generate st c1 r1 f1 = .ok st1 u1 →
      UUIDv7.generate st1 c2 r2 f2 = .ok st2 u2 →
      st1.lastTimestamp < st2.lastTimestamp ∨
        (st1.lastTimestamp = st2.lastTimestamp ∧ st1.sequence < st2.sequence)) ∧
    (∀ (st st1 st2 : UUIDv7Worker.State) (c1 c2 : Nat → Int) (r1 r2 : Int) (f1 f2 : Nat)
        (u1 u2 : List Char),
      UUIDv7Worker.generate st c1 r1 f1 = .ok st1 u1 →
      UUIDv7Worker.generate st1 c2 r2 f2 = .ok st2 u2 →
      st1.lastTimestamp < st2.lastTimestamp ∨
        (st1.lastTimestamp = st2.lastTimestamp ∧ st1.sequence < st2.sequence)) ∧
    (∀ (st st1 st2 : Snowflake.State) (c1 c2 : Nat → Int) (f1 f2 : Nat) (u1 u2 : List Char),
      (∀ i, Snowflake.EPOCH ≤ c1 i) → (∀ i, Snowflake.EPOCH ≤ c2 i) →
      0 ≤ st.workerId → st.workerId ≤ 1023 →
      Snowflake.generate st c1 f1 = .ok st1 u1 →
      Snowflake.generate st1 c2 f2 = .ok st2 u2 →
      ∃ v1 v2 : Int, u1 = jsBigIntToString 10 v1 ∧ u2 = jsBigIntToString 10 v2 ∧ v1 < v2) ∧
    (∀ (st st1 st2 : UUIDv7.State) (c1 c2 : Nat → Int) (r1 r2 : Int) (f1 f2 : Nat)
        (u1 u2 : List Char),
      (∀ i, 0 ≤ c1 i ∧ c1 i < 2 ^ 48) → (∀ i, 0 ≤ c2 i ∧ c2 i < 2 ^ 48) →
      0 ≤ st.sequenceOffset → st.sequenceOffset ≤ 4095 →
      UUIDv7.generate st c1 r1 f1 = .ok st1 u1 →
      UUIDv7.generate st1 c2 r2 f2 = .ok st2 u2 →
      String.mk u1 < String.mk u2 ∧
      ∃ L1 R1 L2 R2 : Int, u1 = UUIDv7.formatUUID L1 R1 ∧ u2 = UUIDv7.formatUUID L2 R2 ∧
        L1 * 18446744073709551616 + R1 < L2 * 18446744073709551616 + R2) := by
  refine ⟨?_, ?_, ?_, ?_, ?_⟩
  · intro st st1 st2 c1 c2 f1 f2 u1 u2 hgen1 hgen2
    obtain ⟨t1, s1, hstep1, _⟩ := snowflake_generate_ok_inv hgen1
    obtain ⟨t2, s2, hstep2, _⟩ := snowflake_generate_ok_inv hgen2
    have hpair := snowflake_pair_increase hstep1 hstep2
    obtain ⟨hst1, _⟩ := snowflake_step_ok_inv hstep1
    obtain ⟨hst2, _⟩ := snowflake_step_ok_inv hstep2
    rw [hst1, hst2]
    exact hpair
  · intro st st1 st2 c1 c2 r1 r2 f1 f2 u1 u2 hoff0 hoff hgen1 hgen2
    obtain ⟨t1, s1, hstep1, _⟩ := uuid7_generate_ok_inv hgen1
    obtain ⟨t2, s2, hstep2, _⟩ := uuid7_generate_ok_inv hgen2
    have hpair := uuid7_pair_increase hoff0 hoff hstep1 hstep2
    obtain ⟨hst1, _⟩ := uuid7_step_ok_inv hstep1
    obtain ⟨hst2, _⟩ := uuid7_step_ok_inv hstep2
    rw [hst1, hst2]
    exact hpair
  · intro st st1 st2 c1 c2 r1 r2 f1 f2 u1 u2 hgen1 hgen2
    obtain ⟨t1, s1, hstep1, _⟩ := uuid7w_generate_ok_inv hgen1
    obtain ⟨t2, s2, hstep2, _⟩ := uuid7w_generate_ok_inv hgen2
    have hpair := uuid7w_pair_increase hstep1 hstep2
    obtain ⟨hst1, _⟩ := uuid7w_step_ok_inv hstep1
    obtain ⟨hst2, _⟩ := uuid7w_step_ok_inv hstep2
    rw [hst1, hst2]
    exact hpair
  · intro st st1 st2 c1 c2 f1 f2 u1 u2 hb1 hb2 hw0 hw hgen1 hgen2
    obtain ⟨t1, s1, hstep1, hu1⟩ := snowflake_generate_ok_inv hgen1
    obtain ⟨t2, s2, hstep2, hu2⟩ := snowflake_generate_ok_inv hgen2
    have hpair := snowflake_pair_increase hstep1 hstep2
    obtain ⟨hst1, hc1⟩ := snowflake_step_ok_inv hstep1
    obtain ⟨hst2, hc2⟩ := snowflake_step_ok_inv hstep2
    have ht1E : Snowflake.EPOCH ≤ t1 := by
      rcases hc1 with ⟨_, ht, _⟩ | ⟨_, _, _, ht⟩ | ⟨_, _, _, hwt⟩
      · subst ht
        exact hb1 0
      · subst ht
        exact hb1 0
      · obtain ⟨_, i, hti⟩ := wait_some f1 _ t1 hwt
        rw [hti]
        exact hb1 (i + 1)
    have ht2E : Snowflake.EPOCH ≤ t2 := by
      rcases hc2 with ⟨_, ht, _⟩ | ⟨_, _, _, ht⟩ | ⟨_, _, _, hwt⟩
      · subst ht
        exact hb2 0
      · subst ht
        exact hb2 0
      · obtain ⟨_, i, hti⟩ := wait_some f2 _ t2 hwt
        rw [hti]
        exact hb2 (i + 1)
    have hmask1 := int_land_pow2m1_bounds (st.sequence + 1) 12
    rw [show ((2 : Int) ^ 12 - 1) = 4095 from by norm_num] at hmask1
    have hs1b : 0 ≤ s1 ∧ s1 ≤ 4095 := by
      rcases hc1 with ⟨_, _, hs⟩ | ⟨_, hs, _, _⟩ | ⟨_, hs, _, _⟩
      · subst hs
        exact ⟨le_refl 0, by norm_num⟩
      · subst hs
        exact hmask1
      · subst hs
        exact ⟨le_refl 0, by norm_num⟩
    have hmask2 := int_land_pow2m1_bounds (st1.sequence + 1) 12
    rw [show ((2 : Int) ^ 12 - 1) = 4095 from by norm_num] at hmask2
    have hs2b : 0 ≤ s2 ∧ s2 ≤ 4095 := by
      rcases hc2 with ⟨_, _, hs⟩ | ⟨_, hs, _, _⟩ | ⟨_, hs, _, _⟩
      · subst hs
        exact ⟨le_refl 0, by norm_num⟩
      · subst hs
        exact hmask2
      · subst hs
        exact ⟨le_refl 0, by norm_num⟩
    have hw1 : st1.workerId = st.workerId := by rw [hst1]
    refine ⟨Snowflake.packBits t1 st.workerId s1, Snowflake.packBits t2 st1.workerId s2,
      hu1, hu2, ?_⟩
    have hp1 := snowflake_packBits_eq ht1E hw0 hw hs1b.1 hs1b.2
    have hp2 := @snowflake_packBits_eq t2 st1.workerId s2 ht2E (by rw [hw1]; exact hw0)
      (by rw [hw1]; exact hw) hs2b.1 hs2b.2
    rw [hp1, hp2, hw1]
    rcases hpair with h | ⟨heq, h⟩
    · omega
    · omega
  · intro st st1 st2 c1 c2 r1 r2 f1 f2 u1 u2 hb1 hb2 hoff0 hoff hgen1 hgen2
    obtain ⟨t1, s1, hstep1, hu1⟩ := uuid7_generate_ok_inv hgen1
    obtain ⟨t2, s2, hstep2, hu2⟩ := uuid7_generate_ok_inv hgen2
    have hpair := uuid7_pair_increase hoff0 hoff hstep1 hstep2
    obtain ⟨hst1, hc1⟩ := uuid7_step_ok_inv hstep1
    obtain ⟨hst2, hc2⟩ := uuid7_step_ok_inv hstep2
    have htb1 : 0 ≤ t1 ∧ t1 < 2 ^ 48 := by
      rcases hc1 with ⟨_, ht, _⟩ | ⟨_, _, _, ht⟩ | ⟨_, _, _, hwt⟩
      · subst ht
        exact hb1 0
      · subst ht
        exact hb1 0
      · obtain ⟨_, i, hti⟩ := wait_some f1 _ t1 hwt
        rw [hti]
        exact hb1 (i + 1)
    have htb2 : 0 ≤ t2 ∧ t2 < 2 ^ 48 := by
      rcases hc2 with ⟨_, ht, _⟩ | ⟨_, _, _, ht⟩ | ⟨_, _, _, hwt⟩
      · subst ht
        exact hb2 0
      · subst ht
        exact hb2 0
      · obtain ⟨_, i, hti⟩ := wait_some f2 _ t2 hwt
        rw [hti]
        exact hb2 (i + 1)
    have hmask1 := int_land_pow2m1_bounds (st.sequence + 1) 12
    rw [show ((2 : Int) ^ 12 - 1) = 4095 from by norm_num] at hmask1
    have hs1b : 0 ≤ s1 ∧ s1 ≤ 4095 := by
      rcases hc1 with ⟨_, _, hs⟩ | ⟨_, hs, _, _⟩ | ⟨_, hs, _, _⟩
      · subst hs
        exact ⟨hoff0, hoff⟩
      · subst hs
        exact hmask1
      · subst hs
        exact ⟨hoff0, hoff⟩
    have hmask2 := int_land_pow2m1_bounds (st1.sequence + 1) 12
    rw [show ((2 : Int) ^ 12 - 1) = 4095 from by norm_num] at hmask2
    have hof1 : st1.sequenceOffset = st.sequenceOffset := by rw [hst1]
    have hs2b : 0 ≤ s2 ∧ s2 ≤ 4095 := by
      rcases hc2 with ⟨_, _, hs⟩ | ⟨_, hs, _, _⟩ | ⟨_, hs, _, _⟩
      · subst hs
        rw [hof1]
        exact ⟨hoff0, hoff⟩
      · subst hs
        exact hmask2
      · subst hs
        rw [hof1]
        exact ⟨hoff0, hoff⟩
    have hp1 := @uuid7_packBits_eq t1 s1 r1 htb1.1 hs1b.1 hs1b.2
    have hp2 := @uuid7_packBits_eq t2 s2 r2 htb2.1 hs2b.1 hs2b.2
    have hL1e : (UUIDv7.packBits t1 s1 r1).1 = t1 * 65536 + 28672 + s1 := by
      simp only [hp1]
    have hR1e : (UUIDv7.packBits t1 s1 r1).2 =
        9223372036854775808 + Int.land r1 UUIDv7.RAND_B_MASK := by
      simp only [hp1]
    have hL2e : (UUIDv7.packBits t2 s2 r2).1 = t2 * 65536 + 28672 + s2 := by
      simp only [hp2]
    have hR2e : (UUIDv7.packBits t2 s2 r2).2 =
        9223372036854775808 + Int.land r2 UUIDv7.RAND_B_MASK := by
      simp only [hp2]
    have hmaskB : UUIDv7.RAND_B_MASK = 2 ^ 62 - 1 := by decide
    have hrb1 := int_land_pow2m1_bounds r1 62
    rw [← hmaskB] at hrb1
    have hrb2 := int_land_pow2m1_bounds r2 62
    rw [← hmaskB] at hrb2
    have h62 : (2 : Int) ^ 62 = 4611686018427387904 := by norm_num
    have hm1 : t1 * 65536 ≤ (2 ^ 48 - 1) * 65536 :=
      mul_le_mul_of_nonneg_right (by omega) (by norm_num)
    have hm2 : t2 * 65536 ≤ (2 ^ 48 - 1) * 65536 :=
      mul_le_mul_of_nonneg_right (by omega) (by norm_num)
    have hm0a : (0 : Int) ≤ t1 * 65536 := mul_nonneg htb1.1 (by norm_num)
    have hm0b : (0 : Int) ≤ t2 * 65536 := mul_nonneg htb2.1 (by norm_num)
    have hbig : ((2 : Int) ^ 48 - 1) * 65536 = 18446744073709551616 - 65536 := by norm_num
    have hL1b : 0 ≤ (UUIDv7.packBits t1 s1 r1).1 ∧
        (UUIDv7.packBits t1 s1 r1).1 < 18446744073709551616 := by
      rw [hL1e]
      omega
    have hL2b : 0 ≤ (UUIDv7.packBits t2 s2 r2).1 ∧
        (UUIDv7.packBits t2 s2 r2).1 < 18446744073709551616 := by
      rw [hL2e]
      omega
    have hR1b : 0 ≤ (UUIDv7.packBits t1 s1 r1).2 ∧
        (UUIDv7.packBits t1 s1 r1).2 < 18446744073709551616 := by
      rw [hR1e]
      omega
    have hR2b : 0 ≤ (UUIDv7.packBits t2 s2 r2).2 ∧
        (UUIDv7.packBits t2 s2 r2).2 < 18446744073709551616 := by
      rw [hR2e]
      omega
    have hLlt : (UUIDv7.packBits t1 s1 r1).1 < (UUIDv7.packBits t2 s2 r2).1 := by
      rw [hL1e, hL2e]
      rcases hpair with h | ⟨heq, h⟩
      · have hd : t2 * 65536 - t1 * 65536 = (t2 - t1) * 65536 := by ring
        have hone : (1 : Int) ≤ t2 - t1 := by omega
        have := mul_le_mul_of_nonneg_right hone (show (0 : Int) ≤ 65536 by norm_num)
        omega
      · omega
    have hlex := uuid_lex_of_left_lt hL1b.1 hL1b.2 hL2b.1 hL2b.2 hR1b.1 hR1b.2
      hR2b.1 hR2b.2 hLlt
    subst hu1
    subst hu2
    refine ⟨string_lt_iff_lex.mpr hlex, (UUIDv7.packBits t1 s1 r1).1,
      (UUIDv7.packBits t1 s1 r1).2, (UUIDv7.packBits t2 s2 r2).1,
      (UUIDv7.packBits t2 s2 r2).2, rfl, rfl, ?_⟩
    rw [hL1e, hL2e] at hLlt
    rw [hL1e, hR1e, hL2e, hR2e]
    have hk : (0 : Int) ≤ 18446744073709551616 := by norm_num
    have hmul := mul_le_mul_of_nonneg_right
      (show t1 * 65536 + 28672 + s1 + 1 ≤ t2 * 65536 + 28672 + s2 by omega) hk
    have hdist : (t1 * 65536 + 28672 + s1 + 1) * 18446744073709551616 =
        (t1 * 65536 + 28672 + s1) * 18446744073709551616 + 18446744073709551616 := by ring
    omega

/-- C1 counterexample: (1) two successive Snowflake calls one
millisecond apart return numerically increasing ids whose decimal
strings strictly decrease in lexicographic order (a 16-digit id follows
a 15-digit one); (2) two successive same-millisecond calls of the
two-argument UUIDv7 variant with random values 5 then 3 return ids that
decrease both numerically and lexicographically, because the 12 bits
right of the version nibble are random rather than the sequence. -/
theorem claim_C1_counterexample :
    (Snowflake.generate ⟨0, -1, 0⟩ (fun _ => Snowflake.EPOCH + 238418579) 0 =
        .ok ⟨0, Snowflake.EPOCH + 238418579, 0⟩ (jsBigIntToString 10 999999999574016) ∧
     Snowflake.generate ⟨0, Snowflake.EPOCH + 238418579, 0⟩
        (fun _ => Snowflake.EPOCH + 238418580) 0 =
        .ok ⟨0, Snowflake.EPOCH + 238418580, 0⟩ (jsBigIntToString 10 1000000003768320) ∧
     (999999999574016 : Int) < 1000000003768320 ∧
     ¬ String.mk (jsBigIntToString 10 999999999574016) <
        String.mk (jsBigIntToString 10 1000000003768320)) ∧
    (UUIDv7Worker.generate ⟨0, -1, 0⟩ (fun _ => 1716093634155) 5 0 =
        .ok ⟨0, 1716093634155, 0⟩
          (UUIDv7Worker.formatUUID (1716093634155 * 65536 + 28672 + 5) 9223372036854775808) ∧
     UUIDv7Worker.generate ⟨0, 1716093634155, 0⟩ (fun _ => 1716093634155) 3 0 =
        .ok ⟨0, 1716093634155, 1⟩
          (UUIDv7Worker.formatUUID (1716093634155 * 65536 + 28672 + 3)
            (9223372036854775808 + 1099511627776)) ∧
     (1716093634155 * 65536 + 28672 + 3) * 18446744073709551616 +
        (9223372036854775808 + 1099511627776 : Int) <
       (1716093634155 * 65536 + 28672 + 5) * 18446744073709551616 + 9223372036854775808 ∧
     ¬ String.mk (UUIDv7Worker.formatUUID (1716093634155 * 65536 + 28672 + 5)
          9223372036854775808) <
        String.mk (UUIDv7Worker.formatUUID (1716093634155 * 65536 + 28672 + 3)
          (9223372036854775808 + 1099511627776))) := by
  refine ⟨⟨by decide, by decide, by decide, fun h => ?_⟩,
          ⟨by decide, by decide, by norm_num, fun h => ?_⟩⟩
  · exact absurd ((lexLtb_iff _ _).mpr (string_lt_iff_lex.mp h)) (by decide)
  · exact absurd ((lexLtb_iff _ _).mpr (string_lt_iff_lex.mp h)) (by decide)

/-- Witness for C1 at concrete two-call runs of all three classes. -/
theorem claim_C1_witness :
    ((⟨0, Snowflake.EPOCH + 1, 0⟩ : Snowflake.State).lastTimestamp <
        (⟨0, Snowflake.EPOCH + 2, 0⟩ : Snowflake.State).lastTimestamp ∨
      ((⟨0, Snowflake.EPOCH + 1, 0⟩ : Snowflake.State).lastTimestamp =
          (⟨0, Snowflake.EPOCH + 2, 0⟩ : Snowflake.State).lastTimestamp ∧
        (⟨0, Snowflake.EPOCH + 1, 0⟩ : Snowflake.State).sequence <
          (⟨0, Snowflake.EPOCH + 2, 0⟩ : Snowflake.State).sequence)) ∧
    ((⟨0, 100, 0⟩ : UUIDv7.State).lastTimestamp <
        (⟨0, 100, 1⟩ : UUIDv7.State).lastTimestamp ∨
      ((⟨0, 100, 0⟩ : UUIDv7.State).lastTimestamp =
          (⟨0, 100, 1⟩ : UUIDv7.State).lastTimestamp ∧
        (⟨0, 100, 0⟩ : UUIDv7.State).sequence < (⟨0, 100, 1⟩ : UUIDv7.State).sequence)) ∧
    ((⟨0, 100, 0⟩ : UUIDv7Worker.State).lastTimestamp <
        (⟨0, 100, 1⟩ : UUIDv7Worker.State).lastTimestamp ∨
      ((⟨0, 100, 0⟩ : UUIDv7Worker.State).lastTimestamp =
          (⟨0, 100, 1⟩ : UUIDv7Worker.State).lastTimestamp ∧
        (⟨0, 100, 0⟩ : UUIDv7Worker.State).sequence <
          (⟨0, 100, 1⟩ : UUIDv7Worker.State).sequence)) ∧
    (∃ v1 v2 : Int, jsBigIntToString 10 4194304 = jsBigIntToString 10 v1 ∧
      jsBigIntToString 10 8388608 = jsBigIntToString 10 v2 ∧ v1 < v2) ∧
    (String.mk (UUIDv7.formatUUID (UUIDv7.packBits 100 0 7).1 (UUIDv7.packBits 100 0 7).2) <
      String.mk (UUIDv7.formatUUID (UUIDv7.packBits 100 1 9).1 (UUIDv7.packBits 100 1 9).2) ∧
     ∃ L1 R1 L2 R2 : Int,
       UUIDv7.formatUUID (UUIDv7.packBits 100 0 7).1 (UUIDv7.packBits 100 0 7).2 =
         UUIDv7.formatUUID L1 R1 ∧
       UUIDv7.formatUUID (UUIDv7.packBits 100 1 9).1 (UUIDv7.packBits 100 1 9).2 =
         UUIDv7.formatUUID L2 R2 ∧
       L1 * 18446744073709551616 + R1 < L2 * 18446744073709551616 + R2) :=
  ⟨claim_C1.1 ⟨0, -1, 0⟩ ⟨0, Snowflake.EPOCH + 1, 0⟩ ⟨0, Snowflake.EPOCH + 2, 0⟩
      (fun _ => Snowflake.EPOCH + 1) (fun _ => Snowflake.EPOCH + 2) 0 0
      (jsBigIntToString 10 4194304) (jsBigIntToString 10 8388608) (by decide) (by decide),
   claim_C1.2.1 ⟨0, -1, 0⟩ ⟨0, 100, 0⟩ ⟨0, 100, 1⟩ (fun _ => 100) (fun _ => 100) 7 9 0 0
      (UUIDv7.formatUUID (UUIDv7.packBits 100 0 7).1 (UUIDv7.packBits 100 0 7).2)
      (UUIDv7.formatUUID (UUIDv7.packBits 100 1 9).1 (UUIDv7.packBits 100 1 9).2)
      (by decide) (by decide) (by decide) (by decide),
   claim_C1.2.2.1 ⟨0, -1, 0⟩ ⟨0, 100, 0⟩ ⟨0, 100, 1⟩ (fun _ => 100) (fun _ => 100) 7 9 0 0
      (UUIDv7Worker.formatUUID (UUIDv7Worker.packBits 100 0 0 7 0).1
        (UUIDv7Worker.packBits 100 0 0 7 0).2)
      (UUIDv7Worker.formatUUID (UUIDv7Worker.packBits 100 0 1 9 0).1
        (UUIDv7Worker.packBits 100 0 1 9 0).2)
      (by decide) (by decide),
   claim_C1.2.2.2.1 ⟨0, -1, 0⟩ ⟨0, Snowflake.EPOCH + 1, 0⟩ ⟨0, Snowflake.EPOCH + 2, 0⟩
      (fun _ => Snowflake.EPOCH + 1) (fun _ => Snowflake.EPOCH + 2) 0 0
      (jsBigIntToString 10 4194304) (jsBigIntToString 10 8388608)
      (fun _ => show Snowflake.EPOCH ≤ Snowflake.EPOCH + 1 from by decide)
      (fun _ => show Snowflake.EPOCH ≤ Snowflake.EPOCH + 2 from by decide)
      (by decide) (by decide) (by decide) (by decide),
   claim_C1.2.2.2.2 ⟨0, -1, 0⟩ ⟨0, 100, 0⟩ ⟨0, 100, 1⟩ (fun _ => 100) (fun _ => 100) 7 9 0 0
      (UUIDv7.formatUUID (UUIDv7.packBits 100 0 7).1 (UUIDv7.packBits 100 0 7).2)
      (UUIDv7.formatUUID (UUIDv7.packBits 100 1 9).1 (UUIDv7.packBits 100 1 9).2)
      (fun _ => show (0 : Int) ≤ 100 ∧ (100 : Int) < 2 ^ 48 from ⟨by decide, by decide⟩)
      (fun _ => show (0 : Int) ≤ 100 ∧ (100 : Int) < 2 ^ 48 from ⟨by decide, by decide⟩)
      (by decide) (by decide) (by decide) (by decide)⟩
